import Mathlib

/-!
Verification of the BinaryNinja C++ API binding layer
(`src/binaryninjaapi.h` plus the `DataBuffer` implementation fragment).

The self-contained logic of the repository is embedded shallowly:
* `RefCountObject` / `Ref<T>` (src/binaryninjaapi.h lines 24-126) as a
  state machine over a heap of reference-counted objects and a set of
  live `Ref<T>` handles;
* `BinaryReader` / `BinaryWriter` (lines 619-723), whose method bodies
  are not part of this source tree, modelled from the spec as sequential
  cursors with bounds-checked access to a byte view;
* `DataBuffer` (lines 161-201 and the implementation fragment), whose
  `BN*` core buffer primitives are modelled from the spec as a store of
  byte buffers addressed by handle.
-/

set_option autoImplicit false

namespace BinaryNinja

/-! ### Association-list helpers

Object heaps and handle tables are represented as association lists
from numeric identifiers (standing for addresses) to values. -/

abbrev ObjId := Nat
abbrev RefId := Nat

/-- A possibly-NULL `T*`: `none` stands for `NULL`. -/
abbrev Ptr := Option ObjId

def alookup {α : Type} : List (Nat × α) → Nat → Option α
  | [], _ => none
  | e :: t, k => if e.1 = k then some e.2 else alookup t k

def aupdate {α : Type} : List (Nat × α) → Nat → α → List (Nat × α)
  | [], _, _ => []
  | e :: t, k, v => if e.1 = k then (k, v) :: t else e :: aupdate t k v

def aremove {α : Type} : List (Nat × α) → Nat → List (Nat × α)
  | [], _ => []
  | e :: t, k => if e.1 = k then aremove t k else e :: aremove t k

def amodify {α : Type} : List (Nat × α) → Nat → (α → α) → List (Nat × α)
  | [], _, _ => []
  | e :: t, k, f => if e.1 = k then (e.1, f e.2) :: amodify t k f else e :: amodify t k f

def akeys {α : Type} (l : List (Nat × α)) : List Nat := l.map Prod.fst

/-! ### `RefCountObject` (src/binaryninjaapi.h:24-50)

The heap maps the address of each live `RefCountObject` to its `m_refs`
field (a C++ `int`, hence `Int`).  An object absent from the heap has
been deleted (or never allocated). -/

abbrev Heap := List (ObjId × Int)

/-- `RefCountObject::RefCountObject()` (line 28): `m_refs(0)`. -/
def RefCountObject.newRefs : Int := 0

/-- `RefCountObject::AddRef` (lines 31-38): atomically increments
`m_refs` by one; never deletes the object. -/
def AddRef (h : Heap) (q : ObjId) : Heap :=
  match alookup h q with
  | some r => aupdate h q (r + 1)
  | none => h

/-- `RefCountObject::Release` (lines 40-49): atomically decrements
`m_refs` by one and, when the fetched value was 1 (so the decremented
count reaches zero), deletes the object. -/
def Release (h : Heap) (q : ObjId) : Heap :=
  match alookup h q with
  | some r => if r = 1 then aremove h q else aupdate h q (r - 1)
  | none => h

/-- `if (m_obj) m_obj->AddRef();` on a possibly-NULL pointer
(`Ref<T>` constructors and assignment, lines 62-100). -/
def addRefOpt (h : Heap) : Ptr → Heap
  | none => h
  | some q => AddRef h q

/-- `if (oldObj) oldObj->Release();` on a possibly-NULL pointer
(`Ref<T>` destructor and assignment, lines 74-100). -/
def releaseOpt (h : Heap) : Ptr → Heap
  | none => h
  | some q => Release h q

/-! ### `Ref<T>` (src/binaryninjaapi.h:52-126)

A world is the heap of live `RefCountObject`s together with the table
of live `Ref<T>` handles; each handle stores its `m_obj` pointer. -/

abbrev Refs := List (RefId × Ptr)

structure World where
  heap : Heap
  refs : Refs

/-- The number of live `Ref<T>` handles whose wrapped pointer is the
object `q`. -/
def countRefs (rs : Refs) (q : ObjId) : Nat :=
  rs.countP (fun e => e.2 == some q)

/-- The `m_obj` field of handle `h` (meaningful when the handle is
live). -/
def getPtr (rs : Refs) (h : RefId) : Ptr :=
  (alookup rs h).getD none

/-- A pointer is NULL or refers to a live object. -/
def livePtrB (heap : Heap) : Ptr → Bool
  | none => true
  | some q => (alookup heap q).isSome

/-- The `Ref<T>` operations of src/binaryninjaapi.h:52-126, together
with allocation of a fresh `RefCountObject` (`new T`). -/
inductive RefOp where
  /-- `new T`: allocate an object; `RefCountObject()` sets `m_refs` to 0. -/
  | newObject (q : ObjId)
  /-- `Ref<T>()` (lines 58-60): `m_obj(NULL)`. -/
  | mkDefault (h : RefId)
  /-- `Ref<T>(T* obj)` (lines 62-66). -/
  | mkFromPtr (h : RefId) (p : Ptr)
  /-- `Ref<T>(const Ref<T>&)` (lines 68-72). -/
  | mkCopy (h : RefId) (src : RefId)
  /-- `~Ref<T>()` (lines 74-78). -/
  | destroy (h : RefId)
  /-- `operator=(const Ref<T>&)` (lines 80-89). -/
  | assignRef (h : RefId) (src : RefId)
  /-- `operator=(T*)` (lines 91-100). -/
  | assignPtr (h : RefId) (p : Ptr)

/-- Well-formedness of an operation: fresh handle/object identifiers
are really fresh, operated-on handles are live, and raw pointers passed
in are NULL or point to live objects. -/
def World.validOp (w : World) : RefOp → Prop
  | .newObject q => alookup w.heap q = none
  | .mkDefault h => alookup w.refs h = none
  | .mkFromPtr h p => alookup w.refs h = none ∧ livePtrB w.heap p = true
  | .mkCopy h src => alookup w.refs h = none ∧ (alookup w.refs src).isSome = true
  | .destroy h => (alookup w.refs h).isSome = true
  | .assignRef h src => (alookup w.refs h).isSome = true ∧ (alookup w.refs src).isSome = true
  | .assignPtr h p => (alookup w.refs h).isSome = true ∧ livePtrB w.heap p = true

/-- The effect of each `Ref<T>` operation, transcribed from
src/binaryninjaapi.h:52-126.  In both assignment operators the new
pointer is `AddRef`ed before the old pointer is `Release`d, exactly as
in the source (lines 80-100). -/
def World.applyOp (w : World) : RefOp → World
  | .newObject q => ⟨(q, RefCountObject.newRefs) :: w.heap, w.refs⟩
  | .mkDefault h => ⟨w.heap, (h, none) :: w.refs⟩
  | .mkFromPtr h p => ⟨addRefOpt w.heap p, (h, p) :: w.refs⟩
  | .mkCopy h src => ⟨addRefOpt w.heap (getPtr w.refs src), (h, getPtr w.refs src) :: w.refs⟩
  | .destroy h => ⟨releaseOpt w.heap (getPtr w.refs h), aremove w.refs h⟩
  | .assignRef h src =>
      ⟨releaseOpt (addRefOpt w.heap (getPtr w.refs src)) (getPtr w.refs h),
        aupdate w.refs h (getPtr w.refs src)⟩
  | .assignPtr h p =>
      ⟨releaseOpt (addRefOpt w.heap p) (getPtr w.refs h), aupdate w.refs h p⟩

/-- The reference-counting invariant: identifiers are unambiguous, every
live object's `m_refs` equals the number of live handles wrapping it,
and every handle's non-NULL pointer refers to a live (not deleted)
object. -/
def World.Inv (w : World) : Prop :=
  (akeys w.heap).Nodup ∧
  (akeys w.refs).Nodup ∧
  (∀ e ∈ w.heap, e.2 = (countRefs w.refs e.1 : Int)) ∧
  (∀ e ∈ w.refs, livePtrB w.heap e.2 = true)

instance (w : World) : Decidable w.Inv := by
  unfold World.Inv; infer_instance

instance (w : World) (op : RefOp) : Decidable (w.validOp op) := by
  cases op <;> (unfold World.validOp; infer_instance)

/-- `Ref<T>::operator!` (lines 117-120): `return m_obj == NULL;`. -/
def Ref.opNot (m_obj : Ptr) : Bool := m_obj == none

/-- `Ref<T>::GetPtr` (lines 122-125): `return m_obj;`. -/
def Ref.GetPtr (m_obj : Ptr) : Ptr := m_obj

/-- `Ref<T>::operator T*` (lines 102-105): `return m_obj;`. -/
def Ref.opConvert (m_obj : Ptr) : Ptr := m_obj

/-! ### `BinaryReader` / `BinaryWriter` (src/binaryninjaapi.h:619-723)

Only the declarations of these classes are part of this source tree;
their bodies delegate to the opaque core.  Following the spec
("sequential cursor wrappers over a `BinaryView`, delegating
bounds-checked reads/writes to the core"), the underlying view is a
byte list and the core stream state is a cursor plus an endianness. -/

/-- `BNEndianness` (from the core header, referenced at
src/binaryninjaapi.h:632,686). -/
inductive BNEndianness where
  | LittleEndian
  | BigEndian
deriving DecidableEq

/-- Modelled from the spec: the core's bounds-checked read of `n` bytes
of a view's data at `offset`; it succeeds exactly when the requested
range is fully available. -/
def viewBytes (data : List Nat) (offset n : Nat) : Option (List Nat) :=
  if offset + n ≤ data.length then some ((data.drop offset).take n) else none

/-- Modelled from the spec: the core's bounds-checked overwrite of a
view's data at `offset`; it succeeds exactly when the target range can
be fully written. -/
def spliceBytes (data : List Nat) (offset : Nat) (bs : List Nat) : Option (List Nat) :=
  if offset + bs.length ≤ data.length then
    some (data.take offset ++ bs ++ data.drop (offset + bs.length))
  else none

/-- Value of a byte list read in little-endian order. -/
def leValue : List Nat → Nat
  | [] => 0
  | b :: bs => b + 256 * leValue bs

/-- Value of a byte list read in big-endian order. -/
def beValue (bs : List Nat) : Nat := leValue bs.reverse

/-- Byte-list interpretation under an endianness. -/
def endianValue : BNEndianness → List Nat → Nat
  | .LittleEndian, bs => leValue bs
  | .BigEndian, bs => beValue bs

/-- The `n`-byte little-endian encoding of `v`. -/
def leBytes : Nat → Nat → List Nat
  | 0, _ => []
  | n + 1, v => (v % 256) :: leBytes n (v / 256)

/-- The `n`-byte encoding of `v` under an endianness. -/
def endianBytes : BNEndianness → Nat → Nat → List Nat
  | .LittleEndian, n, v => leBytes n v
  | .BigEndian, n, v => (leBytes n v).reverse

/-- `ReadException` (src/binaryninjaapi.h:619-624). -/
structure ReadException where

/-- `ReadException::what` (line 623): `return "read out of bounds";`. -/
def ReadException.what (_ : ReadException) : String := "read out of bounds"

/-- `WriteException` (src/binaryninjaapi.h:673-678). -/
structure WriteException where

/-- `WriteException::what` (line 677): `return "write out of bounds";`. -/
def WriteException.what (_ : WriteException) : String := "write out of bounds"

/-- Modelled from the spec: a `BinaryReader` (src/binaryninjaapi.h:626-671)
is a sequential cursor over a `BinaryView`'s data, with a current
endianness held by the core stream. -/
structure BinaryReader where
  view : List Nat
  endian : BNEndianness
  offset : Nat

/-- `BinaryReader::BinaryReader(BinaryView*, BNEndianness endian = LittleEndian)`
(line 632) called with the endianness defaulted. -/
def BinaryReader.new (data : List Nat) : BinaryReader :=
  ⟨data, .LittleEndian, 0⟩

/-- `BinaryReader::BinaryReader` (line 632) with an explicit endianness. -/
def BinaryReader.newWithEndian (data : List Nat) (e : BNEndianness) : BinaryReader :=
  ⟨data, e, 0⟩

/-- `BinaryReader::GetEndianness` (line 635). -/
def BinaryReader.GetEndianness (r : BinaryReader) : BNEndianness := r.endian

/-- `BinaryReader::SetEndianness` (line 636). -/
def BinaryReader.SetEndianness (r : BinaryReader) (e : BNEndianness) : BinaryReader :=
  ⟨r.view, e, r.offset⟩

/-- `BinaryReader::GetOffset` (line 666). -/
def BinaryReader.GetOffset (r : BinaryReader) : Nat := r.offset

/-- Modelled from the spec: `BinaryReader::Seek` (line 667) positions
the cursor at the given offset. -/
def BinaryReader.Seek (r : BinaryReader) (o : Nat) : BinaryReader :=
  ⟨r.view, r.endian, o⟩

/-- Modelled from the spec: `BinaryReader::SeekRelative` (line 668)
adds a signed 64-bit delta to the unsigned 64-bit cursor, with the
machine's wraparound modulo `2 ^ 64`. -/
def BinaryReader.SeekRelative (r : BinaryReader) (d : Int) : BinaryReader :=
  ⟨r.view, r.endian, (((r.offset : Int) + d) % (2 ^ 64 : Int)).toNat⟩

/-- Modelled from the spec: `BinaryReader::IsEndOfFile` (line 670) is
true exactly when the cursor is at or past the end of the view's data. -/
def BinaryReader.IsEndOfFile (r : BinaryReader) : Bool :=
  decide (r.view.length ≤ r.offset)

/-- Modelled from the spec: `BinaryReader::TryRead` (line 652) performs
the core's bounds-checked read at the cursor and advances the cursor on
success; on failure it reports failure (`none`) instead of throwing. -/
def BinaryReader.TryRead (r : BinaryReader) (n : Nat) : Option (List Nat × BinaryReader) :=
  match viewBytes r.view r.offset n with
  | some bs => some (bs, ⟨r.view, r.endian, r.offset + n⟩)
  | none => none

/-- Modelled from the spec: `BinaryReader::Read` (line 638) performs the
same read as `TryRead` and throws `ReadException` when the requested
range is not fully available. -/
def BinaryReader.Read (r : BinaryReader) (n : Nat) :
    Except ReadException (List Nat × BinaryReader) :=
  match r.TryRead n with
  | some res => Except.ok res
  | none => Except.error ⟨⟩

/-- Modelled from the spec: `BinaryReader::TryReadString` (line 654)
reads `n` bytes as a string. -/
def BinaryReader.TryReadString (r : BinaryReader) (n : Nat) :
    Option (String × BinaryReader) :=
  (r.TryRead n).map (fun x => ((x.1.map Char.ofNat).asString, x.2))

/-- Modelled from the spec: `BinaryReader::ReadString` (line 640). -/
def BinaryReader.ReadString (r : BinaryReader) (n : Nat) :
    Except ReadException (String × BinaryReader) :=
  match r.TryReadString n with
  | some res => Except.ok res
  | none => Except.error ⟨⟩

/-- Modelled from the spec: an `n`-byte integer read, interpreting the
bytes with endianness `e`. -/
def BinaryReader.tryReadVal (r : BinaryReader) (e : BNEndianness) (n : Nat) :
    Option (Nat × BinaryReader) :=
  (r.TryRead n).map (fun x => (endianValue e x.1, x.2))

/-- `BinaryReader::TryRead8` (line 655): a single byte (endianness
irrelevant). -/
def BinaryReader.TryRead8 (r : BinaryReader) : Option (Nat × BinaryReader) :=
  r.tryReadVal .LittleEndian 1

/-- `BinaryReader::TryRead16` (line 656): current endianness. -/
def BinaryReader.TryRead16 (r : BinaryReader) : Option (Nat × BinaryReader) :=
  r.tryReadVal r.endian 2

/-- `BinaryReader::TryRead32` (line 657): current endianness. -/
def BinaryReader.TryRead32 (r : BinaryReader) : Option (Nat × BinaryReader) :=
  r.tryReadVal r.endian 4

/-- `BinaryReader::TryRead64` (line 658): current endianness. -/
def BinaryReader.TryRead64 (r : BinaryReader) : Option (Nat × BinaryReader) :=
  r.tryReadVal r.endian 8

/-- `BinaryReader::TryReadLE16` (line 659). -/
def BinaryReader.TryReadLE16 (r : BinaryReader) : Option (Nat × BinaryReader) :=
  r.tryReadVal .LittleEndian 2

/-- `BinaryReader::TryReadLE32` (line 660). -/
def BinaryReader.TryReadLE32 (r : BinaryReader) : Option (Nat × BinaryReader) :=
  r.tryReadVal .LittleEndian 4

/-- `BinaryReader::TryReadLE64` (line 661). -/
def BinaryReader.TryReadLE64 (r : BinaryReader) : Option (Nat × BinaryReader) :=
  r.tryReadVal .LittleEndian 8

/-- `BinaryReader::TryReadBE16` (line 662). -/
def BinaryReader.TryReadBE16 (r : BinaryReader) : Option (Nat × BinaryReader) :=
  r.tryReadVal .BigEndian 2

/-- `BinaryReader::TryReadBE32` (line 663). -/
def BinaryReader.TryReadBE32 (r : BinaryReader) : Option (Nat × BinaryReader) :=
  r.tryReadVal .BigEndian 4

/-- `BinaryReader::TryReadBE64` (line 664). -/
def BinaryReader.TryReadBE64 (r : BinaryReader) : Option (Nat × BinaryReader) :=
  r.tryReadVal .BigEndian 8

/-- Throwing counterpart of a sized try-read, as `Read8` through
`ReadBE64` (lines 641-650) are to `TryRead8` through `TryReadBE64`. -/
def readOrThrow (o : Option (Nat × BinaryReader)) :
    Except ReadException (Nat × BinaryReader) :=
  match o with
  | some res => Except.ok res
  | none => Except.error ⟨⟩

/-- `BinaryReader::Read8` (line 641). -/
def BinaryReader.Read8 (r : BinaryReader) : Except ReadException (Nat × BinaryReader) :=
  readOrThrow r.TryRead8

/-- `BinaryReader::Read16` (line 642). -/
def BinaryReader.Read16 (r : BinaryReader) : Except ReadException (Nat × BinaryReader) :=
  readOrThrow r.TryRead16

/-- `BinaryReader::Read32` (line 643). -/
def BinaryReader.Read32 (r : BinaryReader) : Except ReadException (Nat × BinaryReader) :=
  readOrThrow r.TryRead32

/-- `BinaryReader::Read64` (line 644). -/
def BinaryReader.Read64 (r : BinaryReader) : Except ReadException (Nat × BinaryReader) :=
  readOrThrow r.TryRead64

/-- `BinaryReader::ReadLE16` (line 645). -/
def BinaryReader.ReadLE16 (r : BinaryReader) : Except ReadException (Nat × BinaryReader) :=
  readOrThrow r.TryReadLE16

/-- `BinaryReader::ReadLE32` (line 646). -/
def BinaryReader.ReadLE32 (r : BinaryReader) : Except ReadException (Nat × BinaryReader) :=
  readOrThrow r.TryReadLE32

/-- `BinaryReader::ReadLE64` (line 647). -/
def BinaryReader.ReadLE64 (r : BinaryReader) : Except ReadException (Nat × BinaryReader) :=
  readOrThrow r.TryReadLE64

/-- `BinaryReader::ReadBE16` (line 648). -/
def BinaryReader.ReadBE16 (r : BinaryReader) : Except ReadException (Nat × BinaryReader) :=
  readOrThrow r.TryReadBE16

/-- `BinaryReader::ReadBE32` (line 649). -/
def BinaryReader.ReadBE32 (r : BinaryReader) : Except ReadException (Nat × BinaryReader) :=
  readOrThrow r.TryReadBE32

/-- `BinaryReader::ReadBE64` (line 650). -/
def BinaryReader.ReadBE64 (r : BinaryReader) : Except ReadException (Nat × BinaryReader) :=
  readOrThrow r.TryReadBE64

/-- Modelled from the spec: a `BinaryWriter` (src/binaryninjaapi.h:680-723)
is a sequential cursor over a `BinaryView`'s data, with a current
endianness held by the core stream. -/
structure BinaryWriter where
  view : List Nat
  endian : BNEndianness
  offset : Nat

/-- `BinaryWriter::BinaryWriter(BinaryView*, BNEndianness endian = LittleEndian)`
(line 686) called with the endianness defaulted. -/
def BinaryWriter.new (data : List Nat) : BinaryWriter :=
  ⟨data, .LittleEndian, 0⟩

/-- `BinaryWriter::BinaryWriter` (line 686) with an explicit endianness. -/
def BinaryWriter.newWithEndian (data : List Nat) (e : BNEndianness) : BinaryWriter :=
  ⟨data, e, 0⟩

/-- `BinaryWriter::GetEndianness` (line 689). -/
def BinaryWriter.GetEndianness (w : BinaryWriter) : BNEndianness := w.endian

/-- `BinaryWriter::SetEndianness` (line 690). -/
def BinaryWriter.SetEndianness (w : BinaryWriter) (e : BNEndianness) : BinaryWriter :=
  ⟨w.view, e, w.offset⟩

/-- `BinaryWriter::GetOffset` (line 720). -/
def BinaryWriter.GetOffset (w : BinaryWriter) : Nat := w.offset

/-- Modelled from the spec: `BinaryWriter::Seek` (line 721). -/
def BinaryWriter.Seek (w : BinaryWriter) (o : Nat) : BinaryWriter :=
  ⟨w.view, w.endian, o⟩

/-- Modelled from the spec: `BinaryWriter::SeekRelative` (line 722),
with the machine's unsigned 64-bit wraparound. -/
def BinaryWriter.SeekRelative (w : BinaryWriter) (d : Int) : BinaryWriter :=
  ⟨w.view, w.endian, (((w.offset : Int) + d) % (2 ^ 64 : Int)).toNat⟩

/-- Modelled from the spec: `BinaryWriter::TryWrite` (line 706) performs
the core's bounds-checked write at the cursor and advances the cursor on
success; on failure it reports failure (`none`) instead of throwing. -/
def BinaryWriter.TryWrite (w : BinaryWriter) (bs : List Nat) : Option BinaryWriter :=
  match spliceBytes w.view w.offset bs with
  | some d => some ⟨d, w.endian, w.offset + bs.length⟩
  | none => none

/-- Modelled from the spec: `BinaryWriter::Write` (line 692) performs
the same write as `TryWrite` and throws `WriteException` when the range
cannot be fully written. -/
def BinaryWriter.Write (w : BinaryWriter) (bs : List Nat) :
    Except WriteException BinaryWriter :=
  match w.TryWrite bs with
  | some w' => Except.ok w'
  | none => Except.error ⟨⟩

/-- Modelled from the spec: an `n`-byte integer write, encoding `v`
with endianness `e`. -/
def BinaryWriter.tryWriteVal (w : BinaryWriter) (e : BNEndianness) (n v : Nat) :
    Option BinaryWriter :=
  w.TryWrite (endianBytes e n v)

/-- `BinaryWriter::TryWrite8` (line 709). -/
def BinaryWriter.TryWrite8 (w : BinaryWriter) (v : Nat) : Option BinaryWriter :=
  w.tryWriteVal .LittleEndian 1 v

/-- `BinaryWriter::TryWrite16` (line 710): current endianness. -/
def BinaryWriter.TryWrite16 (w : BinaryWriter) (v : Nat) : Option BinaryWriter :=
  w.tryWriteVal w.endian 2 v

/-- `BinaryWriter::TryWrite32` (line 711): current endianness. -/
def BinaryWriter.TryWrite32 (w : BinaryWriter) (v : Nat) : Option BinaryWriter :=
  w.tryWriteVal w.endian 4 v

/-- `BinaryWriter::TryWrite64` (line 712): current endianness. -/
def BinaryWriter.TryWrite64 (w : BinaryWriter) (v : Nat) : Option BinaryWriter :=
  w.tryWriteVal w.endian 8 v

/-- `BinaryWriter::TryWriteLE16` (line 713). -/
def BinaryWriter.TryWriteLE16 (w : BinaryWriter) (v : Nat) : Option BinaryWriter :=
  w.tryWriteVal .LittleEndian 2 v

/-- `BinaryWriter::TryWriteLE32` (line 714). -/
def BinaryWriter.TryWriteLE32 (w : BinaryWriter) (v : Nat) : Option BinaryWriter :=
  w.tryWriteVal .LittleEndian 4 v

/-- `BinaryWriter::TryWriteLE64` (line 715). -/
def BinaryWriter.TryWriteLE64 (w : BinaryWriter) (v : Nat) : Option BinaryWriter :=
  w.tryWriteVal .LittleEndian 8 v

/-- `BinaryWriter::TryWriteBE16` (line 716). -/
def BinaryWriter.TryWriteBE16 (w : BinaryWriter) (v : Nat) : Option BinaryWriter :=
  w.tryWriteVal .BigEndian 2 v

/-- `BinaryWriter::TryWriteBE32` (line 717). -/
def BinaryWriter.TryWriteBE32 (w : BinaryWriter) (v : Nat) : Option BinaryWriter :=
  w.tryWriteVal .BigEndian 4 v

/-- `BinaryWriter::TryWriteBE64` (line 718). -/
def BinaryWriter.TryWriteBE64 (w : BinaryWriter) (v : Nat) : Option BinaryWriter :=
  w.tryWriteVal .BigEndian 8 v

/-- Throwing counterpart of a sized try-write, as `Write8` through
`WriteBE64` (lines 695-704) are to `TryWrite8` through `TryWriteBE64`. -/
def writeOrThrow (o : Option BinaryWriter) : Except WriteException BinaryWriter :=
  match o with
  | some w' => Except.ok w'
  | none => Except.error ⟨⟩

/-- `BinaryWriter::Write8` (line 695). -/
def BinaryWriter.Write8 (w : BinaryWriter) (v : Nat) : Except WriteException BinaryWriter :=
  writeOrThrow (w.TryWrite8 v)

/-- `BinaryWriter::Write16` (line 696). -/
def BinaryWriter.Write16 (w : BinaryWriter) (v : Nat) : Except WriteException BinaryWriter :=
  writeOrThrow (w.TryWrite16 v)

/-- `BinaryWriter::Write32` (line 697). -/
def BinaryWriter.Write32 (w : BinaryWriter) (v : Nat) : Except WriteException BinaryWriter :=
  writeOrThrow (w.TryWrite32 v)

/-- `BinaryWriter::Write64` (line 698). -/
def BinaryWriter.Write64 (w : BinaryWriter) (v : Nat) : Except WriteException BinaryWriter :=
  writeOrThrow (w.TryWrite64 v)

/-- `BinaryWriter::WriteLE16` (line 699). -/
def BinaryWriter.WriteLE16 (w : BinaryWriter) (v : Nat) : Except WriteException BinaryWriter :=
  writeOrThrow (w.TryWriteLE16 v)

/-- `BinaryWriter::WriteLE32` (line 700). -/
def BinaryWriter.WriteLE32 (w : BinaryWriter) (v : Nat) : Except WriteException BinaryWriter :=
  writeOrThrow (w.TryWriteLE32 v)

/-- `BinaryWriter::WriteLE64` (line 701). -/
def BinaryWriter.WriteLE64 (w : BinaryWriter) (v : Nat) : Except WriteException BinaryWriter :=
  writeOrThrow (w.TryWriteLE64 v)

/-- `BinaryWriter::WriteBE16` (line 702). -/
def BinaryWriter.WriteBE16 (w : BinaryWriter) (v : Nat) : Except WriteException BinaryWriter :=
  writeOrThrow (w.TryWriteBE16 v)

/-- `BinaryWriter::WriteBE32` (line 703). -/
def BinaryWriter.WriteBE32 (w : BinaryWriter) (v : Nat) : Except WriteException BinaryWriter :=
  writeOrThrow (w.TryWriteBE32 v)

/-- `BinaryWriter::WriteBE64` (line 704). -/
def BinaryWriter.WriteBE64 (w : BinaryWriter) (v : Nat) : Except WriteException BinaryWriter :=
  writeOrThrow (w.TryWriteBE64 v)

/-! ### `DataBuffer` (src/binaryninjaapi.h:161-201 and its implementation)

The `DataBuffer` methods in the implementation fragment forward to the
core's `BN*DataBuffer*` allocation functions, which are not part of
this source tree.  Following the spec ("byte-buffer value type
forwarding to core allocation/compression functions"), the core's
buffer store is a heap mapping `BNDataBuffer*` handles to byte lists;
allocation returns a fresh handle. -/

abbrev BufId := Nat
abbrev BufHeap := List (BufId × List Nat)

/-- Modelled from the spec: a handle no core buffer uses yet. -/
def freshBuf (H : BufHeap) : BufId := (akeys H).foldr max 0 + 1

/-- Modelled from the spec: `BNCreateDataBuffer` allocates a fresh core
buffer holding the given bytes. -/
def bnCreateDataBuffer (H : BufHeap) (bs : List Nat) : BufId × BufHeap :=
  (freshBuf H, (freshBuf H, bs) :: H)

/-- Modelled from the spec: `BNDuplicateDataBuffer` allocates a fresh
core buffer holding a copy of the source buffer's bytes. -/
def bnDuplicateDataBuffer (H : BufHeap) (src : BufId) : BufId × BufHeap :=
  (freshBuf H, (freshBuf H, (alookup H src).getD []) :: H)

/-- Modelled from the spec: `BNFreeDataBuffer` deallocates a core
buffer. -/
def bnFreeDataBuffer (H : BufHeap) (b : BufId) : BufHeap := aremove H b

/-- Modelled from the spec: `BNSetDataBufferLength` resizes a core
buffer in place, truncating or zero-extending its contents. -/
def bnSetDataBufferLength (H : BufHeap) (b : BufId) (n : Nat) : BufHeap :=
  amodify H b (fun bs => (bs ++ List.replicate (n - bs.length) 0).take n)

/-- Modelled from the spec: `BNClearDataBuffer` empties a core buffer
in place. -/
def bnClearDataBuffer (H : BufHeap) (b : BufId) : BufHeap :=
  amodify H b (fun _ => [])

/-- Modelled from the spec: `BNAppendDataBufferContents` appends raw
bytes to a core buffer in place. -/
def bnAppendDataBufferContents (H : BufHeap) (b : BufId) (bs : List Nat) : BufHeap :=
  amodify H b (fun cur => cur ++ bs)

/-- Modelled from the spec: a byte store through the pointer returned
by `BNGetDataBufferContents`, as performed by a write through
`DataBuffer::operator[]`. -/
def bnWriteBufferByte (H : BufHeap) (b : BufId) (i v : Nat) : BufHeap :=
  amodify H b (fun bs => bs.set i v)

/-- A `DataBuffer` holds a `BNDataBuffer* m_buffer`
(src/binaryninjaapi.h:163). -/
structure DataBuffer where
  m_buffer : BufId

/-- `DataBuffer::DataBuffer(const DataBuffer&)` (implementation):
`m_buffer = BNDuplicateDataBuffer(buf.m_buffer);`. -/
def DataBuffer.copyCtor (H : BufHeap) (buf : DataBuffer) : DataBuffer × BufHeap :=
  (⟨(bnDuplicateDataBuffer H buf.m_buffer).1⟩, (bnDuplicateDataBuffer H buf.m_buffer).2)

/-- `DataBuffer::operator=` (implementation):
`BNFreeDataBuffer(m_buffer); m_buffer = BNDuplicateDataBuffer(buf.m_buffer);`. -/
def DataBuffer.opAssign (H : BufHeap) (self buf : DataBuffer) : DataBuffer × BufHeap :=
  (⟨(bnDuplicateDataBuffer (bnFreeDataBuffer H self.m_buffer) buf.m_buffer).1⟩,
    (bnDuplicateDataBuffer (bnFreeDataBuffer H self.m_buffer) buf.m_buffer).2)

/-- `DataBuffer::GetLength` (implementation): forwards to
`BNGetDataBufferLength`. -/
def DataBuffer.GetLength (H : BufHeap) (b : DataBuffer) : Nat :=
  ((alookup H b.m_buffer).getD []).length

/-- The mutating `DataBuffer` operations named by the spec's value-
semantics guarantee. -/
inductive BufMutation where
  | setSize (n : Nat)
  | clear
  | appendBytes (bs : List Nat)
  | appendByte (v : Nat)
  | writeAt (i v : Nat)

/-- Dispatch of a mutating `DataBuffer` method to the core call the
implementation forwards it to: `SetSize` to `BNSetDataBufferLength`,
`Clear` to `BNClearDataBuffer`, `Append` to
`BNAppendDataBufferContents`, `AppendByte` to `Append(&val, 1)`, and a
write through `operator[]` to a store into
`BNGetDataBufferContents(m_buffer)`. -/
def DataBuffer.mutate (H : BufHeap) (b : DataBuffer) : BufMutation → BufHeap
  | .setSize n => bnSetDataBufferLength H b.m_buffer n
  | .clear => bnClearDataBuffer H b.m_buffer
  | .appendBytes bs => bnAppendDataBufferContents H b.m_buffer bs
  | .appendByte v => bnAppendDataBufferContents H b.m_buffer [v]
  | .writeAt i v => bnWriteBufferByte H b.m_buffer i v

/-! ## Lemmas about the association-list helpers -/

@[simp]
theorem alookup_nil {α : Type} (k : Nat) : alookup ([] : List (Nat × α)) k = none := rfl

@[simp]
theorem alookup_cons {α : Type} (e : Nat × α) (t : List (Nat × α)) (k : Nat) :
    alookup (e :: t) k = if e.1 = k then some e.2 else alookup t k := rfl

@[simp]
theorem akeys_nil {α : Type} : akeys ([] : List (Nat × α)) = [] := rfl

@[simp]
theorem akeys_cons {α : Type} (e : Nat × α) (t : List (Nat × α)) :
    akeys (e :: t) = e.1 :: akeys t := rfl

theorem alookup_aupdate {α : Type} (l : List (Nat × α)) (k : Nat) (v : α) (k' : Nat) :
    alookup (aupdate l k v) k' =
      if k = k' then (alookup l k).map (fun _ => v) else alookup l k' := by
  induction l with
  | nil => by_cases hk : k = k' <;> simp [aupdate, hk]
  | cons e t ih =>
    by_cases he : e.1 = k
    · by_cases hk : k = k'
      · subst hk
        simp [aupdate, he]
      · have h1 : ¬ (e.1 = k') := fun hh => hk (he.symm.trans hh)
        simp [aupdate, he, hk, h1]
    · by_cases hk : k = k'
      · subst hk
        simp [aupdate, he, ih]
      · simp [aupdate, he, hk, ih]

theorem alookup_aremove {α : Type} (l : List (Nat × α)) (k k' : Nat) :
    alookup (aremove l k) k' = if k = k' then none else alookup l k' := by
  induction l with
  | nil => by_cases hk : k = k' <;> simp [aremove, hk]
  | cons e t ih =>
    by_cases he : e.1 = k
    · by_cases hk : k = k'
      · subst hk
        simp [aremove, he, ih]
      · have h1 : ¬ (e.1 = k') := fun hh => hk (he.symm.trans hh)
        simp [aremove, he, hk, h1, ih]
    · by_cases hk : k = k'
      · subst hk
        simp [aremove, he, ih]
      · simp [aremove, he, hk, ih]

theorem alookup_amodify {α : Type} (l : List (Nat × α)) (k : Nat) (f : α → α) (k' : Nat) :
    alookup (amodify l k f) k' =
      if k = k' then (alookup l k).map f else alookup l k' := by
  induction l with
  | nil => by_cases hk : k = k' <;> simp [amodify, hk]
  | cons e t ih =>
    by_cases he : e.1 = k
    · by_cases hk : k = k'
      · subst hk
        simp [amodify, he]
      · have h1 : ¬ (e.1 = k') := fun hh => hk (he.symm.trans hh)
        simp [amodify, he, hk, h1, ih]
    · by_cases hk : k = k'
      · subst hk
        simp [amodify, he, ih]
      · simp [amodify, he, hk, ih]

theorem akeys_aupdate {α : Type} (l : List (Nat × α)) (k : Nat) (v : α) :
    akeys (aupdate l k v) = akeys l := by
  induction l with
  | nil => rfl
  | cons e t ih =>
    by_cases he : e.1 = k <;> simp [aupdate, he, ih]

theorem akeys_amodify {α : Type} (l : List (Nat × α)) (k : Nat) (f : α → α) :
    akeys (amodify l k f) = akeys l := by
  induction l with
  | nil => rfl
  | cons e t ih =>
    by_cases he : e.1 = k <;> simp [amodify, he, ih]

theorem aremove_sublist {α : Type} (l : List (Nat × α)) (k : Nat) :
    (aremove l k).Sublist l := by
  induction l with
  | nil => simp [aremove]
  | cons e t ih =>
    by_cases he : e.1 = k
    · simp only [aremove, if_pos he]
      exact ih.cons e
    · simp only [aremove, if_neg he]
      exact ih.cons₂ e

theorem akeys_aremove_nodup {α : Type} (l : List (Nat × α)) (k : Nat)
    (h : (akeys l).Nodup) : (akeys (aremove l k)).Nodup :=
  h.sublist ((aremove_sublist l k).map Prod.fst)

theorem alookup_eq_none_iff {α : Type} (l : List (Nat × α)) (k : Nat) :
    alookup l k = none ↔ k ∉ akeys l := by
  induction l with
  | nil => simp
  | cons e t ih =>
    by_cases he : e.1 = k
    · subst he
      simp
    · have h1 : ¬ (k = e.1) := fun hh => he hh.symm
      simp [he, h1, ih]

theorem alookup_isSome_iff {α : Type} (l : List (Nat × α)) (k : Nat) :
    (alookup l k).isSome = true ↔ k ∈ akeys l := by
  rw [Option.isSome_iff_ne_none]
  constructor
  · intro h
    by_contra hk
    exact h ((alookup_eq_none_iff l k).mpr hk)
  · intro h hn
    exact (alookup_eq_none_iff l k).mp hn h

theorem mem_of_alookup_eq_some {α : Type} {l : List (Nat × α)} {k : Nat} {v : α}
    (h : alookup l k = some v) : (k, v) ∈ l := by
  induction l with
  | nil => simp at h
  | cons e t ih =>
    by_cases he : e.1 = k
    · simp only [alookup_cons, if_pos he, Option.some.injEq] at h
      have : (k, v) = e := by rw [← he, ← h]
      rw [this]
      exact List.mem_cons_self e t
    · simp only [alookup_cons, if_neg he] at h
      exact List.mem_cons_of_mem e (ih h)

theorem alookup_eq_some_of_mem {α : Type} {l : List (Nat × α)} {k : Nat} {v : α}
    (hnd : (akeys l).Nodup) (h : (k, v) ∈ l) : alookup l k = some v := by
  induction l with
  | nil => simp at h
  | cons e t ih =>
    simp only [akeys_cons, List.nodup_cons] at hnd
    rcases List.mem_cons.mp h with h | h
    · subst h
      simp
    · have hk : ¬ (e.1 = k) := by
        intro he
        exact hnd.1 (he ▸ (List.mem_map_of_mem Prod.fst h))
      simp [hk, ih hnd.2 h]

theorem aupdate_self_eq {α : Type} {l : List (Nat × α)} {k : Nat} {v : α}
    (h : alookup l k = some v) : aupdate l k v = l := by
  induction l with
  | nil => rfl
  | cons e t ih =>
    by_cases he : e.1 = k
    · simp only [alookup_cons, if_pos he, Option.some.injEq] at h
      have hkv : (k, v) = e := by rw [← he, ← h]
      simp [aupdate, he, hkv]
    · simp only [alookup_cons, if_neg he] at h
      simp only [aupdate, if_neg he, ih h]

theorem aupdate_aupdate {α : Type} (l : List (Nat × α)) (k : Nat) (a b : α) :
    aupdate (aupdate l k a) k b = aupdate l k b := by
  induction l with
  | nil => rfl
  | cons e t ih =>
    by_cases he : e.1 = k
    · simp [aupdate, he]
    · simp [aupdate, he, ih]

theorem mem_aupdate {α : Type} {l : List (Nat × α)} {k : Nat} {v : α} {e : Nat × α}
    (hnd : (akeys l).Nodup) (h : e ∈ aupdate l k v) :
    e = (k, v) ∨ (e ∈ l ∧ e.1 ≠ k) := by
  induction l with
  | nil => simp [aupdate] at h
  | cons e' t ih =>
    simp only [akeys_cons, List.nodup_cons] at hnd
    by_cases he : e'.1 = k
    · simp only [aupdate, if_pos he] at h
      rcases List.mem_cons.mp h with h | h
      · exact Or.inl h
      · refine Or.inr ⟨List.mem_cons_of_mem e' h, ?_⟩
        intro hek
        exact hnd.1 (he ▸ hek ▸ (List.mem_map_of_mem Prod.fst h))
    · simp only [aupdate, if_neg he] at h
      rcases List.mem_cons.mp h with h | h
      · subst h
        exact Or.inr ⟨List.mem_cons_self e t, he⟩
      · rcases ih hnd.2 h with h | h
        · exact Or.inl h
        · exact Or.inr ⟨List.mem_cons_of_mem e' h.1, h.2⟩

theorem aremove_eq_self_of_not_mem {α : Type} {l : List (Nat × α)} {k : Nat}
    (h : k ∉ akeys l) : aremove l k = l := by
  induction l with
  | nil => rfl
  | cons e t ih =>
    simp only [akeys_cons, List.mem_cons] at h
    push_neg at h
    have he : ¬ (e.1 = k) := fun hh => h.1 hh.symm
    simp only [aremove, if_neg he, ih h.2]

theorem mem_aremove_of_mem {α : Type} {l : List (Nat × α)} {k : Nat} {e : Nat × α}
    (h : e ∈ l) (hk : e.1 ≠ k) : e ∈ aremove l k := by
  induction l with
  | nil => simp at h
  | cons e' t ih =>
    rcases List.mem_cons.mp h with h | h
    · subst h
      simp only [aremove, if_neg hk]
      exact List.mem_cons_self e _
    · by_cases he : e'.1 = k
      · simp only [aremove, if_pos he]
        exact ih h
      · simp only [aremove, if_neg he]
        exact List.mem_cons_of_mem e' (ih h)

theorem mem_of_mem_aremove {α : Type} {l : List (Nat × α)} {k : Nat} {e : Nat × α}
    (h : e ∈ aremove l k) : e ∈ l :=
  (aremove_sublist l k).mem h

/-! ## Lemmas about reference counts and the heap operations -/

@[simp]
theorem countRefs_nil (q : ObjId) : countRefs [] q = 0 := rfl

theorem countRefs_cons (e : RefId × Ptr) (t : Refs) (q : ObjId) :
    countRefs (e :: t) q = countRefs t q + (if e.2 = some q then 1 else 0) := by
  simp [countRefs, List.countP_cons]

theorem countRefs_pos_of_mem {rs : Refs} {e : RefId × Ptr} {q : ObjId}
    (he : e ∈ rs) (hq : e.2 = some q) : 0 < countRefs rs q := by
  rw [countRefs, List.countP_pos_iff]
  exact ⟨e, he, by simp [hq]⟩

theorem exists_of_countRefs_pos {rs : Refs} {q : ObjId}
    (h : countRefs rs q ≠ 0) : ∃ e ∈ rs, e.2 = some q := by
  have hpos : 0 < countRefs rs q := Nat.pos_of_ne_zero h
  rw [countRefs, List.countP_pos_iff] at hpos
  obtain ⟨e, he, hq⟩ := hpos
  exact ⟨e, he, by simpa using hq⟩

theorem countRefs_decomp {rs : Refs} {h : RefId} {p : Ptr} (q : ObjId)
    (hnd : (akeys rs).Nodup) (hl : alookup rs h = some p) :
    countRefs rs q = countRefs (aremove rs h) q + (if p = some q then 1 else 0) := by
  induction rs with
  | nil => simp at hl
  | cons e t ih =>
    simp only [akeys_cons, List.nodup_cons] at hnd
    by_cases he : e.1 = h
    · simp only [alookup_cons, if_pos he, Option.some.injEq] at hl
      have hht : h ∉ akeys t := by simpa [he] using hnd.1
      have ht : aremove t h = t := aremove_eq_self_of_not_mem hht
      simp [aremove, he, ht, countRefs_cons, hl]
    · simp only [alookup_cons, if_neg he] at hl
      simp [aremove, he, countRefs_cons, ih hnd.2 hl]
      omega

theorem countRefs_aupdate_decomp {rs : Refs} {h : RefId} {oldp : Ptr} (p : Ptr) (q : ObjId)
    (hnd : (akeys rs).Nodup) (hl : alookup rs h = some oldp) :
    countRefs (aupdate rs h p) q = countRefs (aremove rs h) q + (if p = some q then 1 else 0) := by
  induction rs with
  | nil => simp at hl
  | cons e t ih =>
    simp only [akeys_cons, List.nodup_cons] at hnd
    by_cases he : e.1 = h
    · have hht : h ∉ akeys t := by simpa [he] using hnd.1
      have ht : aremove t h = t := aremove_eq_self_of_not_mem hht
      simp [aupdate, aremove, he, ht, countRefs_cons]
    · simp only [alookup_cons, if_neg he] at hl
      simp [aupdate, aremove, he, countRefs_cons, ih hnd.2 hl]
      omega

theorem getPtr_eq {rs : Refs} {h : RefId} {p : Ptr} (hl : alookup rs h = some p) :
    getPtr rs h = p := by
  simp [getPtr, hl]

theorem alookup_AddRef (h : Heap) (q q' : ObjId) :
    alookup (AddRef h q) q' =
      if q = q' then (alookup h q).map (fun r => r + 1) else alookup h q' := by
  unfold AddRef
  cases hl : alookup h q with
  | none =>
    by_cases hk : q = q'
    · subst hk
      simp [hl]
    · simp [hk]
  | some r =>
    simp [alookup_aupdate, hl]

theorem akeys_AddRef (h : Heap) (q : ObjId) : akeys (AddRef h q) = akeys h := by
  unfold AddRef
  cases alookup h q <;> simp [akeys_aupdate]

theorem alookup_Release_ne {h : Heap} {q q' : ObjId} (hne : q ≠ q') :
    alookup (Release h q) q' = alookup h q' := by
  unfold Release
  cases alookup h q with
  | none => rfl
  | some r =>
    by_cases h1 : r = 1 <;> simp [h1, alookup_aremove, alookup_aupdate, hne]

theorem alookup_Release_self {h : Heap} {q : ObjId} {r : Int} (hl : alookup h q = some r) :
    alookup (Release h q) q = if r = 1 then none else some (r - 1) := by
  unfold Release
  rw [hl]
  by_cases h1 : r = 1 <;> simp [h1, alookup_aremove, alookup_aupdate, hl]

theorem akeys_Release_nodup {h : Heap} {q : ObjId} (hnd : (akeys h).Nodup) :
    (akeys (Release h q)).Nodup := by
  unfold Release
  cases alookup h q with
  | none => exact hnd
  | some r =>
    by_cases h1 : r = 1
    · simpa [h1] using akeys_aremove_nodup h q hnd
    · simpa [h1, akeys_aupdate] using hnd

theorem alookup_addRefOpt_ne {h : Heap} {p : Ptr} {q : ObjId} (hne : p ≠ some q) :
    alookup (addRefOpt h p) q = alookup h q := by
  cases p with
  | none => rfl
  | some x =>
    have hx : ¬ (x = q) := fun hx => hne (by rw [hx])
    simp [addRefOpt, alookup_AddRef, hx]

theorem akeys_addRefOpt (h : Heap) (p : Ptr) : akeys (addRefOpt h p) = akeys h := by
  cases p <;> simp [addRefOpt, akeys_AddRef]

theorem isSome_addRefOpt (h : Heap) (p : Ptr) (q : ObjId) :
    (alookup (addRefOpt h p) q).isSome = (alookup h q).isSome := by
  cases p with
  | none => rfl
  | some x =>
    by_cases hx : x = q
    · subst hx
      rw [addRefOpt, alookup_AddRef, if_pos rfl]
      cases alookup h x <;> simp
    · simp [addRefOpt, alookup_AddRef, hx]

theorem alookup_releaseOpt_ne {h : Heap} {p : Ptr} {q : ObjId} (hne : p ≠ some q) :
    alookup (releaseOpt h p) q = alookup h q := by
  cases p with
  | none => rfl
  | some x =>
    have hx : x ≠ q := fun hx => hne (by rw [hx])
    simp [releaseOpt, alookup_Release_ne hx]

theorem akeys_releaseOpt_nodup {h : Heap} {p : Ptr} (hnd : (akeys h).Nodup) :
    (akeys (releaseOpt h p)).Nodup := by
  cases p with
  | none => exact hnd
  | some x => exact akeys_Release_nodup hnd

theorem akeys_addRefOpt_nodup {h : Heap} {p : Ptr} (hnd : (akeys h).Nodup) :
    (akeys (addRefOpt h p)).Nodup := by
  rw [akeys_addRefOpt]
  exact hnd

theorem livePtrB_cons {e : ObjId × Int} {h : Heap} {p : Ptr} (hp : livePtrB h p = true) :
    livePtrB (e :: h) p = true := by
  cases p with
  | none => rfl
  | some q =>
    simp only [livePtrB, alookup_cons] at hp ⊢
    by_cases he : e.1 = q <;> simp [he, hp]

theorem key_ne_of_mem_aremove {α : Type} {l : List (Nat × α)} {k : Nat} {e : Nat × α}
    (h : e ∈ aremove l k) : e.1 ≠ k := by
  induction l with
  | nil => simp [aremove] at h
  | cons e' t ih =>
    by_cases he : e'.1 = k
    · simp only [aremove, if_pos he] at h
      exact ih h
    · simp only [aremove, if_neg he] at h
      rcases List.mem_cons.mp h with h | h
      · subst h
        exact he
      · exact ih h

theorem livePtrB_addRefOpt {heap : Heap} {p p' : Ptr} (hp : livePtrB heap p' = true) :
    livePtrB (addRefOpt heap p) p' = true := by
  cases p' with
  | none => rfl
  | some q => simpa [livePtrB, isSome_addRefOpt] using hp

theorem alookup_addRefOpt_self {heap : Heap} {q : ObjId} {r0 : Int}
    (hl : alookup heap q = some r0) :
    alookup (addRefOpt heap (some q)) q = some (r0 + 1) := by
  simp [addRefOpt, alookup_AddRef, hl]

/-- Invariant preservation for the two `Ref<T>` constructors that wrap a
pointer (`Ref<T>(T*)` and the copy constructor): a fresh handle is added
and `AddRef` is performed on its non-NULL pointer. -/
theorem inv_cons_handle {heap : Heap} {rs : Refs} {h : RefId} {p : Ptr}
    (hndH : (akeys heap).Nodup) (hndR : (akeys rs).Nodup)
    (hcount : ∀ e ∈ heap, e.2 = (countRefs rs e.1 : Int))
    (hlive : ∀ e ∈ rs, livePtrB heap e.2 = true)
    (hfresh : alookup rs h = none)
    (hp : livePtrB heap p = true) :
    World.Inv ⟨addRefOpt heap p, (h, p) :: rs⟩ := by
  refine ⟨akeys_addRefOpt_nodup hndH, ?_, ?_, ?_⟩
  · simp only [akeys_cons, List.nodup_cons]
    exact ⟨(alookup_eq_none_iff rs h).mp hfresh, hndR⟩
  · intro e2 hmem
    have hl2 : alookup (addRefOpt heap p) e2.1 = some e2.2 := by
      apply alookup_eq_some_of_mem (akeys_addRefOpt_nodup hndH)
      simpa using hmem
    by_cases hpq : p = some e2.1
    · subst hpq
      have hq0 : (alookup heap e2.1).isSome = true := by simpa [livePtrB] using hp
      obtain ⟨r0, hr0⟩ := Option.isSome_iff_exists.mp hq0
      have h1 : alookup (addRefOpt heap (some e2.1)) e2.1 = some (r0 + 1) :=
        alookup_addRefOpt_self hr0
      rw [hl2] at h1
      have hc : r0 = (countRefs rs e2.1 : Int) := hcount (e2.1, r0) (mem_of_alookup_eq_some hr0)
      have he2 : e2.2 = r0 + 1 := by
        simpa using h1
      rw [he2, hc, countRefs_cons]
      simp
    · rw [alookup_addRefOpt_ne hpq] at hl2
      have hc : e2.2 = (countRefs rs e2.1 : Int) :=
        hcount (e2.1, e2.2) (mem_of_alookup_eq_some hl2)
      rw [hc, countRefs_cons]
      simp [hpq]
  · intro e2 hmem
    rcases List.mem_cons.mp hmem with hmem | hmem
    · subst hmem
      exact livePtrB_addRefOpt hp
    · exact livePtrB_addRefOpt (hlive e2 hmem)

theorem Release_of_none {hp : Heap} {q : ObjId} (hl : alookup hp q = none) :
    Release hp q = hp := by
  unfold Release
  rw [hl]

/-- Invariant preservation for the operations that drop a handle's old
pointer: the destructor (`newp = none`, handle removed) and the two
assignment operators (handle re-pointed), all of which `AddRef` the new
pointer before `Release`ing the old one. -/
theorem inv_release_core {heap : Heap} {rs rs2 : Refs} {h : RefId} {oldp newp : Ptr}
    (hndH : (akeys heap).Nodup) (hndR : (akeys rs).Nodup)
    (hcount : ∀ e ∈ heap, e.2 = (countRefs rs e.1 : Int))
    (hlive : ∀ e ∈ rs, livePtrB heap e.2 = true)
    (hold : alookup rs h = some oldp)
    (hnew : livePtrB heap newp = true)
    (hnd2 : (akeys rs2).Nodup)
    (hcount2 : ∀ q, countRefs rs2 q =
      countRefs (aremove rs h) q + (if newp = some q then 1 else 0))
    (hmem2 : ∀ e ∈ rs2, e.2 = newp ∨ (e ∈ rs ∧ e.1 ≠ h)) :
    World.Inv ⟨releaseOpt (addRefOpt heap newp) oldp, rs2⟩ := by
  have hndH1 : (akeys (addRefOpt heap newp)).Nodup := akeys_addRefOpt_nodup hndH
  have hndH2 : (akeys (releaseOpt (addRefOpt heap newp) oldp)).Nodup :=
    akeys_releaseOpt_nodup hndH1
  refine ⟨hndH2, hnd2, ?_, ?_⟩
  · intro e2 hmem
    have hl2 : alookup (releaseOpt (addRefOpt heap newp) oldp) e2.1 = some e2.2 :=
      alookup_eq_some_of_mem hndH2 (by simpa using hmem)
    have hsplit : countRefs rs e2.1 =
        countRefs (aremove rs h) e2.1 + (if oldp = some e2.1 then 1 else 0) :=
      countRefs_decomp e2.1 hndR hold
    rw [hcount2 e2.1]
    by_cases hoq : oldp = some e2.1
    · rw [hoq] at hl2
      simp only [releaseOpt] at hl2
      rw [if_pos hoq] at hsplit
      by_cases hnq : newp = some e2.1
      · have hq0 : (alookup heap e2.1).isSome = true := by
          rw [hnq] at hnew
          simpa [livePtrB] using hnew
        obtain ⟨r0, hr0⟩ := Option.isSome_iff_exists.mp hq0
        have hc0 : r0 = (countRefs rs e2.1 : Int) :=
          hcount (e2.1, r0) (mem_of_alookup_eq_some hr0)
        have hA : alookup (addRefOpt heap newp) e2.1 = some (r0 + 1) := by
          rw [hnq]
          exact alookup_addRefOpt_self hr0
        have hne1 : ¬ (r0 + 1 = 1) := by
          rw [hc0, hsplit]
          push_cast
          omega
        rw [alookup_Release_self hA, if_neg hne1] at hl2
        have he3 : e2.2 = r0 + 1 - 1 := by simpa using hl2.symm
        rw [if_pos hnq, he3, hc0, hsplit]
        push_cast
        ring
      · have hAq : alookup (addRefOpt heap newp) e2.1 = alookup heap e2.1 :=
          alookup_addRefOpt_ne hnq
        cases hr : alookup heap e2.1 with
        | none =>
          rw [Release_of_none (hAq.trans hr), hAq, hr] at hl2
          exact absurd hl2 (by simp)
        | some r0 =>
          have hc0 : r0 = (countRefs rs e2.1 : Int) :=
            hcount (e2.1, r0) (mem_of_alookup_eq_some hr)
          have hA : alookup (addRefOpt heap newp) e2.1 = some r0 := hAq.trans hr
          by_cases h1 : r0 = 1
          · rw [alookup_Release_self hA, if_pos h1] at hl2
            exact absurd hl2 (by simp)
          · rw [alookup_Release_self hA, if_neg h1] at hl2
            have he3 : e2.2 = r0 - 1 := by simpa using hl2.symm
            rw [if_neg hnq, he3, hc0, hsplit]
            push_cast
            ring
    · have hl2h : alookup (addRefOpt heap newp) e2.1 = some e2.2 := by
        rw [← alookup_releaseOpt_ne hoq]
        exact hl2
      rw [if_neg hoq] at hsplit
      by_cases hnq : newp = some e2.1
      · have hq0 : (alookup heap e2.1).isSome = true := by
          rw [hnq] at hnew
          simpa [livePtrB] using hnew
        obtain ⟨r0, hr0⟩ := Option.isSome_iff_exists.mp hq0
        have hc0 : r0 = (countRefs rs e2.1 : Int) :=
          hcount (e2.1, r0) (mem_of_alookup_eq_some hr0)
        have hA : alookup (addRefOpt heap newp) e2.1 = some (r0 + 1) := by
          rw [hnq]
          exact alookup_addRefOpt_self hr0
        rw [hA] at hl2h
        have he3 : e2.2 = r0 + 1 := by simpa using hl2h.symm
        rw [if_pos hnq, he3, hc0, hsplit]
        push_cast
        ring
      · rw [alookup_addRefOpt_ne hnq] at hl2h
        have hc0 : e2.2 = (countRefs rs e2.1 : Int) :=
          hcount (e2.1, e2.2) (mem_of_alookup_eq_some hl2h)
        rw [if_neg hnq, hc0, hsplit]
  · intro e2 hmem
    cases hp2 : e2.2 with
    | none => rfl
    | some q =>
      have hqheap : (alookup heap q).isSome = true := by
        rcases hmem2 e2 hmem with hh | hh
        · rw [hp2] at hh
          rw [← hh] at hnew
          simpa [livePtrB] using hnew
        · have hl3 := hlive e2 hh.1
          rw [hp2] at hl3
          simpa [livePtrB] using hl3
      obtain ⟨r0, hr0⟩ := Option.isSome_iff_exists.mp hqheap
      have hc0 : r0 = (countRefs rs q : Int) :=
        hcount (q, r0) (mem_of_alookup_eq_some hr0)
      simp only [livePtrB]
      by_cases hoq : oldp = some q
      · rw [hoq]
        simp only [releaseOpt]
        have hsplit : countRefs rs q = countRefs (aremove rs h) q + 1 := by
          have hd := countRefs_decomp q hndR hold
          rwa [if_pos hoq] at hd
        by_cases hnq : newp = some q
        · have hA : alookup (addRefOpt heap newp) q = some (r0 + 1) := by
            rw [hnq]
            exact alookup_addRefOpt_self hr0
          have hcnt1 : 0 < countRefs rs q := by
            apply countRefs_pos_of_mem (mem_of_alookup_eq_some hold)
            exact hoq
          have hne1 : ¬ (r0 + 1 = 1) := by
            rw [hc0]
            omega
          rw [alookup_Release_self hA, if_neg hne1]
          simp
        · have hA : alookup (addRefOpt heap newp) q = some r0 :=
            (alookup_addRefOpt_ne hnq).trans hr0
          rcases hmem2 e2 hmem with hh | hh
          · rw [hp2] at hh
            exact absurd hh.symm hnq
          · have hbase : 0 < countRefs (aremove rs h) q := by
              apply countRefs_pos_of_mem (mem_aremove_of_mem hh.1 hh.2)
              exact hp2
            have hne1 : ¬ (r0 = 1) := by
              rw [hc0, hsplit]
              push_cast
              omega
            rw [alookup_Release_self hA, if_neg hne1]
            simp
      · rw [alookup_releaseOpt_ne hoq, isSome_addRefOpt, hr0]
        rfl

theorem Release_heap_eq {hp : Heap} {q : ObjId} {r : Int}
    (hl : alookup hp q = some r) (hne : ¬ r = 1) :
    Release hp q = aupdate hp q (r - 1) := by
  unfold Release
  rw [hl]
  simp [hne]

theorem addRefOpt_heap_eq {hp : Heap} {q : ObjId} {r : Int}
    (hl : alookup hp q = some r) :
    addRefOpt hp (some q) = aupdate hp q (r + 1) := by
  simp [addRefOpt, AddRef, hl]

/-! ## Claims about `Ref<T>` / `RefCountObject` -/

/-- **C1.** Reference-counting invariant: for every `RefCountObject`
managed only through `Ref<T>` handles, each `Ref<T>` operation (default
construction, construction from a pointer, copy construction,
assignment from a `Ref` or a pointer, destruction) preserves the state
invariant that every live object's `m_refs` equals the number of live
`Ref<T>` handles wrapping it and that no handle's pointer refers to a
deleted object (so an object is never deleted while that number is
positive). -/
theorem ref_counting_invariant_preserved (w : World) (op : RefOp)
    (hInv : w.Inv) (hv : w.validOp op) : (w.applyOp op).Inv := by
  obtain ⟨hndH, hndR, hcount, hlive⟩ := hInv
  cases op with
  | newObject q =>
    have hnone : alookup w.heap q = none := hv
    refine ⟨?_, hndR, ?_, ?_⟩
    · simp only [World.applyOp, akeys_cons, List.nodup_cons]
      exact ⟨(alookup_eq_none_iff w.heap q).mp hnone, hndH⟩
    · intro e hmem
      simp only [World.applyOp] at hmem
      rcases List.mem_cons.mp hmem with hmem | hmem
      · subst hmem
        have hz : countRefs w.refs q = 0 := by
          by_contra hnz
          obtain ⟨e1, he1, hq1⟩ := exists_of_countRefs_pos hnz
          have hl1 := hlive e1 he1
          rw [hq1] at hl1
          simp [livePtrB, hnone] at hl1
        simp [World.applyOp, RefCountObject.newRefs, hz]
      · exact hcount e hmem
    · intro e hmem
      exact livePtrB_cons (hlive e hmem)
  | mkDefault h =>
    have hfresh : alookup w.refs h = none := hv
    refine ⟨hndH, ?_, ?_, ?_⟩
    · simp only [World.applyOp, akeys_cons, List.nodup_cons]
      exact ⟨(alookup_eq_none_iff w.refs h).mp hfresh, hndR⟩
    · intro e hmem
      have hc := hcount e hmem
      simp [World.applyOp, countRefs_cons, hc]
    · intro e hmem
      simp only [World.applyOp] at hmem
      rcases List.mem_cons.mp hmem with hmem | hmem
      · subst hmem
        rfl
      · exact hlive e hmem
  | mkFromPtr h p =>
    exact inv_cons_handle hndH hndR hcount hlive hv.1 hv.2
  | mkCopy h src =>
    obtain ⟨hfresh, hsrc⟩ := hv
    obtain ⟨p0, hp0⟩ := Option.isSome_iff_exists.mp hsrc
    have hlv : livePtrB w.heap (getPtr w.refs src) = true := by
      rw [getPtr_eq hp0]
      exact hlive (src, p0) (mem_of_alookup_eq_some hp0)
    exact inv_cons_handle hndH hndR hcount hlive hfresh hlv
  | destroy h =>
    obtain ⟨oldp, holdp⟩ := Option.isSome_iff_exists.mp hv
    have hnd2 := akeys_aremove_nodup w.refs h hndR
    have hc2 : ∀ q, countRefs (aremove w.refs h) q =
        countRefs (aremove w.refs h) q + (if (none : Ptr) = some q then 1 else 0) := by
      intro q
      simp
    have hm2 : ∀ e ∈ aremove w.refs h, e.2 = (none : Ptr) ∨ (e ∈ w.refs ∧ e.1 ≠ h) := by
      intro e he
      exact Or.inr ⟨mem_of_mem_aremove he, key_ne_of_mem_aremove he⟩
    have hres := inv_release_core hndH hndR hcount hlive holdp
      (show livePtrB w.heap (none : Ptr) = true from rfl) hnd2 hc2 hm2
    show World.Inv ⟨releaseOpt w.heap (getPtr w.refs h), aremove w.refs h⟩
    rw [getPtr_eq holdp]
    exact hres
  | assignRef h src =>
    obtain ⟨hh, hs⟩ := hv
    obtain ⟨oldp, holdp⟩ := Option.isSome_iff_exists.mp hh
    obtain ⟨p0, hp0⟩ := Option.isSome_iff_exists.mp hs
    have hnew : livePtrB w.heap p0 = true :=
      hlive (src, p0) (mem_of_alookup_eq_some hp0)
    have hnd2 : (akeys (aupdate w.refs h p0)).Nodup := by
      rw [akeys_aupdate]
      exact hndR
    have hc2 : ∀ q, countRefs (aupdate w.refs h p0) q =
        countRefs (aremove w.refs h) q + (if p0 = some q then 1 else 0) := by
      intro q
      exact countRefs_aupdate_decomp p0 q hndR holdp
    have hm2 : ∀ e ∈ aupdate w.refs h p0, e.2 = p0 ∨ (e ∈ w.refs ∧ e.1 ≠ h) := by
      intro e he
      rcases mem_aupdate hndR he with he | he
      · left
        rw [he]
      · exact Or.inr he
    have hres := inv_release_core hndH hndR hcount hlive holdp hnew hnd2 hc2 hm2
    show World.Inv ⟨releaseOpt (addRefOpt w.heap (getPtr w.refs src)) (getPtr w.refs h),
      aupdate w.refs h (getPtr w.refs src)⟩
    rw [getPtr_eq holdp, getPtr_eq hp0]
    exact hres
  | assignPtr h p =>
    obtain ⟨hh, hp⟩ := hv
    obtain ⟨oldp, holdp⟩ := Option.isSome_iff_exists.mp hh
    have hnd2 : (akeys (aupdate w.refs h p)).Nodup := by
      rw [akeys_aupdate]
      exact hndR
    have hc2 : ∀ q, countRefs (aupdate w.refs h p) q =
        countRefs (aremove w.refs h) q + (if p = some q then 1 else 0) := by
      intro q
      exact countRefs_aupdate_decomp p q hndR holdp
    have hm2 : ∀ e ∈ aupdate w.refs h p, e.2 = p ∨ (e ∈ w.refs ∧ e.1 ≠ h) := by
      intro e he
      rcases mem_aupdate hndR he with he | he
      · left
        rw [he]
      · exact Or.inr he
    have hres := inv_release_core hndH hndR hcount hlive holdp hp hnd2 hc2 hm2
    show World.Inv ⟨releaseOpt (addRefOpt w.heap p) (getPtr w.refs h), aupdate w.refs h p⟩
    rw [getPtr_eq holdp]
    exact hres

/-- Witness for C1 at a concrete world: one object with one handle,
destroyed. -/
theorem ref_counting_invariant_preserved_witness :
    (World.Inv ⟨[(0, 1)], [(5, some 0)]⟩
      ∧ World.validOp ⟨[(0, 1)], [(5, some 0)]⟩ (.destroy 5))
    ∧ (World.applyOp ⟨[(0, 1)], [(5, some 0)]⟩ (.destroy 5)).Inv :=
  ⟨⟨by decide, by decide⟩,
    ref_counting_invariant_preserved ⟨[(0, 1)], [(5, some 0)]⟩ (.destroy 5)
      (by decide) (by decide)⟩

/-- **C2.** `AddRef` increments `m_refs` by exactly one and never
deletes the object (the heap's domain is unchanged); `Release`
decrements `m_refs` by exactly one and deletes the object if and only
if the count before the call was 1; a new `RefCountObject` starts with
`m_refs` equal to 0. -/
theorem addRef_release_semantics (w : World) (heap : Heap) (q : ObjId) (r : Int)
    (hq : alookup heap q = some r) :
    alookup (AddRef heap q) q = some (r + 1)
    ∧ akeys (AddRef heap q) = akeys heap
    ∧ (r = 1 → alookup (Release heap q) q = none)
    ∧ (¬ r = 1 → alookup (Release heap q) q = some (r - 1))
    ∧ alookup ((w.applyOp (.newObject q)).heap) q = some 0 := by
  refine ⟨?_, akeys_AddRef heap q, ?_, ?_, ?_⟩
  · simp [alookup_AddRef, hq]
  · intro h1
    rw [alookup_Release_self hq, if_pos h1]
  · intro h1
    rw [alookup_Release_self hq, if_neg h1]
  · simp [World.applyOp, RefCountObject.newRefs]

/-- Witness for C2 at a concrete heap with one object whose count is 2. -/
theorem addRef_release_semantics_witness :
    alookup [((3 : Nat), (2 : Int))] 3 = some 2
    ∧ (alookup (AddRef [(3, 2)] 3) 3 = some 3
      ∧ akeys (AddRef [(3, 2)] 3) = akeys [(3, 2)]
      ∧ ((2 : Int) = 1 → alookup (Release [(3, 2)] 3) 3 = none)
      ∧ (¬ (2 : Int) = 1 → alookup (Release [(3, 2)] 3) 3 = some 1)
      ∧ alookup ((World.applyOp ⟨[], []⟩ (.newObject 3)).heap) 3 = some 0) :=
  ⟨by decide, addRef_release_semantics ⟨[], []⟩ [(3, 2)] 3 2 (by decide)⟩

/-- **C8.** Self-assignment of a `Ref<T>` is safe: assigning a live
handle its own value (`r = r`), or the raw pointer it already holds,
leaves the whole state unchanged — the wrapped pointer is the same, the
referenced object's count is the same, and the object is not deleted —
because the assignment operators `AddRef` the new pointer before
`Release`ing the old one. -/
theorem ref_self_assignment_safe (w : World) (h : RefId) (p : Ptr)
    (hInv : w.Inv) (hh : alookup w.refs h = some p) :
    w.applyOp (.assignRef h h) = w ∧ w.applyOp (.assignPtr h p) = w := by
  obtain ⟨hndH, hndR, hcount, hlive⟩ := hInv
  have hg : getPtr w.refs h = p := getPtr_eq hh
  have hrefs : aupdate w.refs h p = w.refs := aupdate_self_eq hh
  have hheap : releaseOpt (addRefOpt w.heap p) p = w.heap := by
    cases p with
    | none => rfl
    | some q =>
      have hlv := hlive (h, some q) (mem_of_alookup_eq_some hh)
      have hq0 : (alookup w.heap q).isSome = true := by simpa [livePtrB] using hlv
      obtain ⟨r0, hr0⟩ := Option.isSome_iff_exists.mp hq0
      have hc0 : r0 = (countRefs w.refs q : Int) :=
        hcount (q, r0) (mem_of_alookup_eq_some hr0)
      have hpos : 0 < countRefs w.refs q :=
        countRefs_pos_of_mem (mem_of_alookup_eq_some hh) rfl
      have hA : alookup (addRefOpt w.heap (some q)) q = some (r0 + 1) :=
        alookup_addRefOpt_self hr0
      have hne1 : ¬ (r0 + 1 = 1) := by
        rw [hc0]
        omega
      show Release (addRefOpt w.heap (some q)) q = w.heap
      rw [Release_heap_eq hA hne1, addRefOpt_heap_eq hr0, aupdate_aupdate]
      have hsub : r0 + 1 - 1 = r0 := by ring
      rw [hsub]
      exact aupdate_self_eq hr0
  constructor
  · show (⟨releaseOpt (addRefOpt w.heap (getPtr w.refs h)) (getPtr w.refs h),
      aupdate w.refs h (getPtr w.refs h)⟩ : World) = w
    rw [hg, hheap, hrefs]
  · show (⟨releaseOpt (addRefOpt w.heap p) (getPtr w.refs h),
      aupdate w.refs h p⟩ : World) = w
    rw [hg, hheap, hrefs]

/-- Witness for C8 at a concrete world: one object with two handles,
one of which is self-assigned. -/
theorem ref_self_assignment_safe_witness :
    (World.Inv ⟨[(0, 2)], [(5, some 0), (6, some 0)]⟩
      ∧ alookup (⟨[(0, 2)], [(5, some 0), (6, some 0)]⟩ : World).refs 5 = some (some 0))
    ∧ (World.applyOp ⟨[(0, 2)], [(5, some 0), (6, some 0)]⟩ (.assignRef 5 5)
        = ⟨[(0, 2)], [(5, some 0), (6, some 0)]⟩
      ∧ World.applyOp ⟨[(0, 2)], [(5, some 0), (6, some 0)]⟩ (.assignPtr 5 (some 0))
        = ⟨[(0, 2)], [(5, some 0), (6, some 0)]⟩) :=
  ⟨⟨by decide, by decide⟩,
    ref_self_assignment_safe ⟨[(0, 2)], [(5, some 0), (6, some 0)]⟩ 5 (some 0)
      (by decide) (by decide)⟩

/-- **C9.** All `Ref<T>` operations are total on a NULL handle: a
default-constructed `Ref<T>` holds NULL; constructing, copying,
assigning, or destroying a `Ref<T>` whose wrapped pointer is NULL
performs no `AddRef` or `Release` (the heap is untouched, so the null
pointer is never dereferenced); `operator!` returns true exactly when
the wrapped pointer is NULL; and `GetPtr` and the `T*` conversion
return that pointer. -/
theorem ref_null_operations (w : World) (hh ss : RefId) (p : Ptr)
    (hnull : getPtr w.refs hh = none) (hsrc : getPtr w.refs ss = none) :
    alookup ((w.applyOp (.mkDefault hh)).refs) hh = some none
    ∧ (w.applyOp (.mkDefault hh)).heap = w.heap
    ∧ (w.applyOp (.mkFromPtr hh none)).heap = w.heap
    ∧ (w.applyOp (.mkCopy hh ss)).heap = w.heap
    ∧ (w.applyOp (.destroy hh)).heap = w.heap
    ∧ (w.applyOp (.assignPtr hh none)).heap = w.heap
    ∧ (w.applyOp (.assignRef hh ss)).heap = w.heap
    ∧ (Ref.opNot p = true ↔ p = none)
    ∧ Ref.GetPtr p = p
    ∧ Ref.opConvert p = p := by
  refine ⟨?_, rfl, rfl, ?_, ?_, ?_, ?_, ?_, rfl, rfl⟩
  · simp [World.applyOp]
  · show addRefOpt w.heap (getPtr w.refs ss) = w.heap
    rw [hsrc]
    rfl
  · show releaseOpt w.heap (getPtr w.refs hh) = w.heap
    rw [hnull]
    rfl
  · show releaseOpt (addRefOpt w.heap none) (getPtr w.refs hh) = w.heap
    rw [hnull]
    rfl
  · show releaseOpt (addRefOpt w.heap (getPtr w.refs ss)) (getPtr w.refs hh) = w.heap
    rw [hnull, hsrc]
    rfl
  · simp [Ref.opNot]

/-- Witness for C9 at a concrete world with a NULL handle. -/
theorem ref_null_operations_witness :
    (getPtr (⟨[(0, 0)], [(5, none)]⟩ : World).refs 5 = none
      ∧ getPtr (⟨[(0, 0)], [(5, none)]⟩ : World).refs 5 = none)
    ∧ (alookup ((World.applyOp ⟨[(0, 0)], [(5, none)]⟩ (.mkDefault 7)).refs) 7 = some none
      ∧ (World.applyOp ⟨[(0, 0)], [(5, none)]⟩ (.mkDefault 7)).heap = [(0, 0)]
      ∧ (World.applyOp ⟨[(0, 0)], [(5, none)]⟩ (.mkFromPtr 7 none)).heap = [(0, 0)]
      ∧ (World.applyOp ⟨[(0, 0)], [(5, none)]⟩ (.mkCopy 7 5)).heap = [(0, 0)]
      ∧ (World.applyOp ⟨[(0, 0)], [(5, none)]⟩ (.destroy 5)).heap = [(0, 0)]
      ∧ (World.applyOp ⟨[(0, 0)], [(5, none)]⟩ (.assignPtr 5 none)).heap = [(0, 0)]
      ∧ (World.applyOp ⟨[(0, 0)], [(5, none)]⟩ (.assignRef 5 5)).heap = [(0, 0)]
      ∧ (Ref.opNot (some 3) = true ↔ (some 3 : Ptr) = none)
      ∧ Ref.GetPtr (some 3) = some 3
      ∧ Ref.opConvert (some 3) = some 3) :=
  ⟨⟨by decide, by decide⟩,
    ref_null_operations ⟨[(0, 0)], [(5, none)]⟩ 7 5 (some 3) (by decide) (by decide)⟩

/-! ## Lemmas about `BinaryReader` / `BinaryWriter` -/

theorem TryRead_isSome (r : BinaryReader) (n : Nat) :
    (r.TryRead n).isSome = true ↔ r.offset + n ≤ r.view.length := by
  unfold BinaryReader.TryRead viewBytes
  by_cases h : r.offset + n ≤ r.view.length <;> simp [h]

theorem TryRead_eq_none (r : BinaryReader) (n : Nat) :
    r.TryRead n = none ↔ r.view.length < r.offset + n := by
  unfold BinaryReader.TryRead viewBytes
  by_cases h : r.offset + n ≤ r.view.length <;> simp [h]
  omega

theorem tryReadVal_isSome (r : BinaryReader) (e : BNEndianness) (n : Nat) :
    ((r.tryReadVal e n).isSome = true ↔ r.offset + n ≤ r.view.length) := by
  unfold BinaryReader.tryReadVal
  rw [← TryRead_isSome]
  cases r.TryRead n <;> simp

theorem tryReadVal_eq_none (r : BinaryReader) (e : BNEndianness) (n : Nat) :
    (r.tryReadVal e n = none ↔ r.view.length < r.offset + n) := by
  unfold BinaryReader.tryReadVal
  rw [← TryRead_eq_none]
  cases r.TryRead n <;> simp

theorem readOrThrow_isOk (o : Option (Nat × BinaryReader)) :
    (readOrThrow o).isOk = o.isSome := by
  cases o <;> rfl

theorem readOrThrow_error (o : Option (Nat × BinaryReader)) :
    (readOrThrow o = Except.error ⟨⟩ ↔ o = none) := by
  cases o <;> simp [readOrThrow]

theorem Read_isOk (r : BinaryReader) (n : Nat) :
    (r.Read n).isOk = (r.TryRead n).isSome := by
  unfold BinaryReader.Read
  cases r.TryRead n <;> rfl

theorem Read_error (r : BinaryReader) (n : Nat) :
    (r.Read n = Except.error ⟨⟩ ↔ r.view.length < r.offset + n) := by
  unfold BinaryReader.Read
  rw [← TryRead_eq_none]
  cases r.TryRead n <;> simp

theorem TryReadString_isSome (r : BinaryReader) (n : Nat) :
    ((r.TryReadString n).isSome = true ↔ r.offset + n ≤ r.view.length) := by
  unfold BinaryReader.TryReadString
  rw [← TryRead_isSome]
  cases r.TryRead n <;> simp

theorem ReadString_error (r : BinaryReader) (n : Nat) :
    (r.ReadString n = Except.error ⟨⟩ ↔ r.view.length < r.offset + n) := by
  unfold BinaryReader.ReadString BinaryReader.TryReadString
  rw [← TryRead_eq_none]
  cases r.TryRead n <;> simp

theorem sizedRead_error (r : BinaryReader) (e : BNEndianness) (n : Nat) :
    (readOrThrow (r.tryReadVal e n) = Except.error ⟨⟩ ↔ r.view.length < r.offset + n) := by
  rw [readOrThrow_error, tryReadVal_eq_none]

/-- **C3.** `BinaryReader` reads are bounds-checked against the view:
every read succeeds exactly when the requested range is fully
available; on failure the throwing variants (`Read`, `ReadString`,
`Read8`..`Read64`, LE/BE variants) throw a `ReadException` whose
`what()` is "read out of bounds", while the `TryRead` variants report
failure instead of throwing, returning success exactly when the read
succeeds. -/
theorem binaryReader_bounds_checked (r : BinaryReader) (n : Nat) :
    ((r.TryRead n).isSome = true ↔ r.offset + n ≤ r.view.length)
    ∧ (r.TryRead n = none ↔ r.view.length < r.offset + n)
    ∧ ((r.Read n).isOk = (r.TryRead n).isSome)
    ∧ (r.Read n = Except.error ⟨⟩ ↔ r.view.length < r.offset + n)
    ∧ ReadException.what ⟨⟩ = "read out of bounds"
    ∧ ((r.TryReadString n).isSome = true ↔ r.offset + n ≤ r.view.length)
    ∧ (r.ReadString n = Except.error ⟨⟩ ↔ r.view.length < r.offset + n)
    ∧ ((r.TryRead8).isSome = true ↔ r.offset + 1 ≤ r.view.length)
    ∧ ((r.TryRead16).isSome = true ↔ r.offset + 2 ≤ r.view.length)
    ∧ ((r.TryRead32).isSome = true ↔ r.offset + 4 ≤ r.view.length)
    ∧ ((r.TryRead64).isSome = true ↔ r.offset + 8 ≤ r.view.length)
    ∧ ((r.TryReadLE16).isSome = true ↔ r.offset + 2 ≤ r.view.length)
    ∧ ((r.TryReadLE32).isSome = true ↔ r.offset + 4 ≤ r.view.length)
    ∧ ((r.TryReadLE64).isSome = true ↔ r.offset + 8 ≤ r.view.length)
    ∧ ((r.TryReadBE16).isSome = true ↔ r.offset + 2 ≤ r.view.length)
    ∧ ((r.TryReadBE32).isSome = true ↔ r.offset + 4 ≤ r.view.length)
    ∧ ((r.TryReadBE64).isSome = true ↔ r.offset + 8 ≤ r.view.length)
    ∧ ((r.Read8).isOk = (r.TryRead8).isSome)
    ∧ ((r.Read16).isOk = (r.TryRead16).isSome)
    ∧ ((r.Read32).isOk = (r.TryRead32).isSome)
    ∧ ((r.Read64).isOk = (r.TryRead64).isSome)
    ∧ ((r.ReadLE16).isOk = (r.TryReadLE16).isSome)
    ∧ ((r.ReadLE32).isOk = (r.TryReadLE32).isSome)
    ∧ ((r.ReadLE64).isOk = (r.TryReadLE64).isSome)
    ∧ ((r.ReadBE16).isOk = (r.TryReadBE16).isSome)
    ∧ ((r.ReadBE32).isOk = (r.TryReadBE32).isSome)
    ∧ ((r.ReadBE64).isOk = (r.TryReadBE64).isSome)
    ∧ (r.Read16 = Except.error ⟨⟩ ↔ r.view.length < r.offset + 2)
    ∧ (r.Read32 = Except.error ⟨⟩ ↔ r.view.length < r.offset + 4)
    ∧ (r.Read64 = Except.error ⟨⟩ ↔ r.view.length < r.offset + 8)
    ∧ (r.ReadLE16 = Except.error ⟨⟩ ↔ r.view.length < r.offset + 2)
    ∧ (r.ReadLE32 = Except.error ⟨⟩ ↔ r.view.length < r.offset + 4)
    ∧ (r.ReadLE64 = Except.error ⟨⟩ ↔ r.view.length < r.offset + 8)
    ∧ (r.ReadBE16 = Except.error ⟨⟩ ↔ r.view.length < r.offset + 2)
    ∧ (r.ReadBE32 = Except.error ⟨⟩ ↔ r.view.length < r.offset + 4)
    ∧ (r.ReadBE64 = Except.error ⟨⟩ ↔ r.view.length < r.offset + 8)
    ∧ (r.Read8 = Except.error ⟨⟩ ↔ r.view.length < r.offset + 1) :=
  ⟨TryRead_isSome r n, TryRead_eq_none r n, Read_isOk r n, Read_error r n, rfl,
    TryReadString_isSome r n, ReadString_error r n,
    tryReadVal_isSome r _ 1, tryReadVal_isSome r _ 2, tryReadVal_isSome r _ 4,
    tryReadVal_isSome r _ 8, tryReadVal_isSome r _ 2, tryReadVal_isSome r _ 4,
    tryReadVal_isSome r _ 8, tryReadVal_isSome r _ 2, tryReadVal_isSome r _ 4,
    tryReadVal_isSome r _ 8,
    readOrThrow_isOk _, readOrThrow_isOk _, readOrThrow_isOk _, readOrThrow_isOk _,
    readOrThrow_isOk _, readOrThrow_isOk _, readOrThrow_isOk _, readOrThrow_isOk _,
    readOrThrow_isOk _, readOrThrow_isOk _,
    sizedRead_error r _ 2, sizedRead_error r _ 4, sizedRead_error r _ 8,
    sizedRead_error r _ 2, sizedRead_error r _ 4, sizedRead_error r _ 8,
    sizedRead_error r _ 2, sizedRead_error r _ 4, sizedRead_error r _ 8,
    sizedRead_error r _ 1⟩

theorem TryWrite_isSome (w : BinaryWriter) (bs : List Nat) :
    (w.TryWrite bs).isSome = true ↔ w.offset + bs.length ≤ w.view.length := by
  unfold BinaryWriter.TryWrite spliceBytes
  by_cases h : w.offset + bs.length ≤ w.view.length <;> simp [h]

theorem TryWrite_eq_none (w : BinaryWriter) (bs : List Nat) :
    w.TryWrite bs = none ↔ w.view.length < w.offset + bs.length := by
  unfold BinaryWriter.TryWrite spliceBytes
  by_cases h : w.offset + bs.length ≤ w.view.length <;> simp [h]
  omega

theorem writeOrThrow_isOk (o : Option BinaryWriter) :
    (writeOrThrow o).isOk = o.isSome := by
  cases o <;> rfl

theorem writeOrThrow_error (o : Option BinaryWriter) :
    (writeOrThrow o = Except.error ⟨⟩ ↔ o = none) := by
  cases o <;> simp [writeOrThrow]

theorem Write_isOk (w : BinaryWriter) (bs : List Nat) :
    (w.Write bs).isOk = (w.TryWrite bs).isSome := by
  unfold BinaryWriter.Write
  cases w.TryWrite bs <;> rfl

theorem Write_error (w : BinaryWriter) (bs : List Nat) :
    (w.Write bs = Except.error ⟨⟩ ↔ w.view.length < w.offset + bs.length) := by
  unfold BinaryWriter.Write
  rw [← TryWrite_eq_none]
  cases w.TryWrite bs <;> simp

theorem endianBytes_length (e : BNEndianness) (n v : Nat) :
    (endianBytes e n v).length = n := by
  have hle : ∀ m x, (leBytes m x).length = m := by
    intro m
    induction m with
    | zero => intro x; rfl
    | succ m ih =>
      intro x
      simp [leBytes, ih]
  cases e <;> simp [endianBytes, hle]

theorem tryWriteVal_isSome (w : BinaryWriter) (e : BNEndianness) (n v : Nat) :
    ((w.tryWriteVal e n v).isSome = true ↔ w.offset + n ≤ w.view.length) := by
  unfold BinaryWriter.tryWriteVal
  rw [TryWrite_isSome, endianBytes_length]

theorem tryWriteVal_eq_none (w : BinaryWriter) (e : BNEndianness) (n v : Nat) :
    (w.tryWriteVal e n v = none ↔ w.view.length < w.offset + n) := by
  unfold BinaryWriter.tryWriteVal
  rw [TryWrite_eq_none, endianBytes_length]

theorem sizedWrite_error (w : BinaryWriter) (e : BNEndianness) (n v : Nat) :
    (writeOrThrow (w.tryWriteVal e n v) = Except.error ⟨⟩ ↔ w.view.length < w.offset + n) := by
  rw [writeOrThrow_error, tryWriteVal_eq_none]

/-- **C4.** `BinaryWriter` writes are bounds-checked against the view:
every write succeeds exactly when the target range can be fully
written; on failure the throwing variants (`Write`, `Write8`..`Write64`,
LE/BE variants) throw a `WriteException` whose `what()` is "write out
of bounds", while the `TryWrite` variants report failure instead of
throwing, returning success exactly when the write succeeds. -/
theorem binaryWriter_bounds_checked (w : BinaryWriter) (bs : List Nat) (v : Nat) :
    ((w.TryWrite bs).isSome = true ↔ w.offset + bs.length ≤ w.view.length)
    ∧ (w.TryWrite bs = none ↔ w.view.length < w.offset + bs.length)
    ∧ ((w.Write bs).isOk = (w.TryWrite bs).isSome)
    ∧ (w.Write bs = Except.error ⟨⟩ ↔ w.view.length < w.offset + bs.length)
    ∧ WriteException.what ⟨⟩ = "write out of bounds"
    ∧ ((w.TryWrite8 v).isSome = true ↔ w.offset + 1 ≤ w.view.length)
    ∧ ((w.TryWrite16 v).isSome = true ↔ w.offset + 2 ≤ w.view.length)
    ∧ ((w.TryWrite32 v).isSome = true ↔ w.offset + 4 ≤ w.view.length)
    ∧ ((w.TryWrite64 v).isSome = true ↔ w.offset + 8 ≤ w.view.length)
    ∧ ((w.TryWriteLE16 v).isSome = true ↔ w.offset + 2 ≤ w.view.length)
    ∧ ((w.TryWriteLE32 v).isSome = true ↔ w.offset + 4 ≤ w.view.length)
    ∧ ((w.TryWriteLE64 v).isSome = true ↔ w.offset + 8 ≤ w.view.length)
    ∧ ((w.TryWriteBE16 v).isSome = true ↔ w.offset + 2 ≤ w.view.length)
    ∧ ((w.TryWriteBE32 v).isSome = true ↔ w.offset + 4 ≤ w.view.length)
    ∧ ((w.TryWriteBE64 v).isSome = true ↔ w.offset + 8 ≤ w.view.length)
    ∧ ((w.Write8 v).isOk = (w.TryWrite8 v).isSome)
    ∧ ((w.Write16 v).isOk = (w.TryWrite16 v).isSome)
    ∧ ((w.Write32 v).isOk = (w.TryWrite32 v).isSome)
    ∧ ((w.Write64 v).isOk = (w.TryWrite64 v).isSome)
    ∧ ((w.WriteLE16 v).isOk = (w.TryWriteLE16 v).isSome)
    ∧ ((w.WriteLE32 v).isOk = (w.TryWriteLE32 v).isSome)
    ∧ ((w.WriteLE64 v).isOk = (w.TryWriteLE64 v).isSome)
    ∧ ((w.WriteBE16 v).isOk = (w.TryWriteBE16 v).isSome)
    ∧ ((w.WriteBE32 v).isOk = (w.TryWriteBE32 v).isSome)
    ∧ ((w.WriteBE64 v).isOk = (w.TryWriteBE64 v).isSome)
    ∧ (w.Write8 v = Except.error ⟨⟩ ↔ w.view.length < w.offset + 1)
    ∧ (w.Write16 v = Except.error ⟨⟩ ↔ w.view.length < w.offset + 2)
    ∧ (w.Write32 v = Except.error ⟨⟩ ↔ w.view.length < w.offset + 4)
    ∧ (w.Write64 v = Except.error ⟨⟩ ↔ w.view.length < w.offset + 8)
    ∧ (w.WriteLE16 v = Except.error ⟨⟩ ↔ w.view.length < w.offset + 2)
    ∧ (w.WriteLE32 v = Except.error ⟨⟩ ↔ w.view.length < w.offset + 4)
    ∧ (w.WriteLE64 v = Except.error ⟨⟩ ↔ w.view.length < w.offset + 8)
    ∧ (w.WriteBE16 v = Except.error ⟨⟩ ↔ w.view.length < w.offset + 2)
    ∧ (w.WriteBE32 v = Except.error ⟨⟩ ↔ w.view.length < w.offset + 4)
    ∧ (w.WriteBE64 v = Except.error ⟨⟩ ↔ w.view.length < w.offset + 8) :=
  ⟨TryWrite_isSome w bs, TryWrite_eq_none w bs, Write_isOk w bs, Write_error w bs, rfl,
    tryWriteVal_isSome w _ 1 v, tryWriteVal_isSome w _ 2 v, tryWriteVal_isSome w _ 4 v,
    tryWriteVal_isSome w _ 8 v, tryWriteVal_isSome w _ 2 v, tryWriteVal_isSome w _ 4 v,
    tryWriteVal_isSome w _ 8 v, tryWriteVal_isSome w _ 2 v, tryWriteVal_isSome w _ 4 v,
    tryWriteVal_isSome w _ 8 v,
    writeOrThrow_isOk _, writeOrThrow_isOk _, writeOrThrow_isOk _, writeOrThrow_isOk _,
    writeOrThrow_isOk _, writeOrThrow_isOk _, writeOrThrow_isOk _, writeOrThrow_isOk _,
    writeOrThrow_isOk _, writeOrThrow_isOk _,
    sizedWrite_error w _ 1 v, sizedWrite_error w _ 2 v, sizedWrite_error w _ 4 v,
    sizedWrite_error w _ 8 v, sizedWrite_error w _ 2 v, sizedWrite_error w _ 4 v,
    sizedWrite_error w _ 8 v, sizedWrite_error w _ 2 v, sizedWrite_error w _ 4 v,
    sizedWrite_error w _ 8 v⟩

/-- **C5.** `BinaryReader` and `BinaryWriter` are sequential cursors:
`Seek(o)` makes `GetOffset()` return `o`; `SeekRelative(d)` changes
`GetOffset()` by exactly `d` (whenever the 64-bit cursor does not
wrap); a successful read or write of `n` bytes advances `GetOffset()`
by exactly `n` (and a read leaves the data unchanged); a `Try*`
failure is determined by the cursor position alone; and
`BinaryReader::IsEndOfFile()` returns true exactly when the cursor is
at or past the end of the view's data. -/
theorem reader_writer_cursor (r : BinaryReader) (w : BinaryWriter) (o : Nat) (d : Int)
    (n : Nat) (bs : List Nat)
    (hr1 : 0 ≤ (r.GetOffset : Int) + d) (hr2 : (r.GetOffset : Int) + d < 2 ^ 64)
    (hw1 : 0 ≤ (w.GetOffset : Int) + d) (hw2 : (w.GetOffset : Int) + d < 2 ^ 64) :
    (r.Seek o).GetOffset = o
    ∧ (w.Seek o).GetOffset = o
    ∧ ((r.SeekRelative d).GetOffset : Int) = (r.GetOffset : Int) + d
    ∧ ((w.SeekRelative d).GetOffset : Int) = (w.GetOffset : Int) + d
    ∧ ((r.TryRead n).map (fun x => x.2.GetOffset)
        = (r.TryRead n).map (fun _ => r.GetOffset + n))
    ∧ ((r.TryRead n).map (fun x => x.2.view) = (r.TryRead n).map (fun _ => r.view))
    ∧ ((w.TryWrite bs).map BinaryWriter.GetOffset
        = (w.TryWrite bs).map (fun _ => w.GetOffset + bs.length))
    ∧ (r.TryRead n = none ↔ r.view.length < r.GetOffset + n)
    ∧ (w.TryWrite bs = none ↔ w.view.length < w.GetOffset + bs.length)
    ∧ (r.IsEndOfFile = true ↔ r.view.length ≤ r.GetOffset) := by
  have hmr : ((r.offset : Int) + d) % 2 ^ 64 = (r.offset : Int) + d :=
    Int.emod_eq_of_lt hr1 hr2
  have hmw : ((w.offset : Int) + d) % 2 ^ 64 = (w.offset : Int) + d :=
    Int.emod_eq_of_lt hw1 hw2
  refine ⟨rfl, rfl, ?_, ?_, ?_, ?_, ?_, ?_, ?_, ?_⟩
  · show ((((r.offset : Int) + d) % 2 ^ 64).toNat : Int) = (r.offset : Int) + d
    rw [hmr]
    exact Int.toNat_of_nonneg hr1
  · show ((((w.offset : Int) + d) % 2 ^ 64).toNat : Int) = (w.offset : Int) + d
    rw [hmw]
    exact Int.toNat_of_nonneg hw1
  · unfold BinaryReader.TryRead
    cases hv : viewBytes r.view r.offset n <;> simp [hv]
    rfl
  · unfold BinaryReader.TryRead
    cases hv : viewBytes r.view r.offset n <;> simp [hv]
  · unfold BinaryWriter.TryWrite
    cases hv : spliceBytes w.view w.offset bs <;> simp [hv]
    rfl
  · exact TryRead_eq_none r n
  · exact TryWrite_eq_none w bs
  · simp [BinaryReader.IsEndOfFile, BinaryReader.GetOffset]

/-- Witness for C5 at a concrete reader and writer with cursor 1,
relative seek of -1. -/
theorem reader_writer_cursor_witness :
    ((0 ≤ (((⟨[1, 2, 3], .LittleEndian, 1⟩ : BinaryReader)).GetOffset : Int) + (-1)
      ∧ (((⟨[1, 2, 3], .LittleEndian, 1⟩ : BinaryReader)).GetOffset : Int) + (-1) < 2 ^ 64)
     ∧ (0 ≤ (((⟨[4, 5], .BigEndian, 1⟩ : BinaryWriter)).GetOffset : Int) + (-1)
      ∧ (((⟨[4, 5], .BigEndian, 1⟩ : BinaryWriter)).GetOffset : Int) + (-1) < 2 ^ 64))
    ∧ (((⟨[1, 2, 3], .LittleEndian, 1⟩ : BinaryReader).Seek 2).GetOffset = 2
      ∧ ((⟨[4, 5], .BigEndian, 1⟩ : BinaryWriter).Seek 2).GetOffset = 2
      ∧ (((⟨[1, 2, 3], .LittleEndian, 1⟩ : BinaryReader).SeekRelative (-1)).GetOffset : Int)
          = ((⟨[1, 2, 3], .LittleEndian, 1⟩ : BinaryReader).GetOffset : Int) + (-1)
      ∧ (((⟨[4, 5], .BigEndian, 1⟩ : BinaryWriter).SeekRelative (-1)).GetOffset : Int)
          = ((⟨[4, 5], .BigEndian, 1⟩ : BinaryWriter).GetOffset : Int) + (-1)
      ∧ (((⟨[1, 2, 3], .LittleEndian, 1⟩ : BinaryReader).TryRead 2).map (fun x => x.2.GetOffset)
          = ((⟨[1, 2, 3], .LittleEndian, 1⟩ : BinaryReader).TryRead 2).map
              (fun _ => (⟨[1, 2, 3], .LittleEndian, 1⟩ : BinaryReader).GetOffset + 2))
      ∧ (((⟨[1, 2, 3], .LittleEndian, 1⟩ : BinaryReader).TryRead 2).map (fun x => x.2.view)
          = ((⟨[1, 2, 3], .LittleEndian, 1⟩ : BinaryReader).TryRead 2).map
              (fun _ => (⟨[1, 2, 3], .LittleEndian, 1⟩ : BinaryReader).view))
      ∧ (((⟨[4, 5], .BigEndian, 1⟩ : BinaryWriter).TryWrite [9]).map BinaryWriter.GetOffset
          = ((⟨[4, 5], .BigEndian, 1⟩ : BinaryWriter).TryWrite [9]).map
              (fun _ => (⟨[4, 5], .BigEndian, 1⟩ : BinaryWriter).GetOffset + [9].length))
      ∧ ((⟨[1, 2, 3], .LittleEndian, 1⟩ : BinaryReader).TryRead 2 = none
          ↔ ([1, 2, 3] : List Nat).length
              < (⟨[1, 2, 3], .LittleEndian, 1⟩ : BinaryReader).GetOffset + 2)
      ∧ ((⟨[4, 5], .BigEndian, 1⟩ : BinaryWriter).TryWrite [9] = none
          ↔ ([4, 5] : List Nat).length
              < (⟨[4, 5], .BigEndian, 1⟩ : BinaryWriter).GetOffset + [9].length)
      ∧ ((⟨[1, 2, 3], .LittleEndian, 1⟩ : BinaryReader).IsEndOfFile = true
          ↔ ([1, 2, 3] : List Nat).length
              ≤ (⟨[1, 2, 3], .LittleEndian, 1⟩ : BinaryReader).GetOffset)) :=
  ⟨⟨⟨by decide, by decide⟩, ⟨by decide, by decide⟩⟩,
    reader_writer_cursor ⟨[1, 2, 3], .LittleEndian, 1⟩ ⟨[4, 5], .BigEndian, 1⟩ 2 (-1) 2 [9]
      (by decide) (by decide) (by decide) (by decide)⟩

/-- **C10.** A `BinaryReader` or `BinaryWriter` constructed without an
explicit endianness argument uses little-endian byte order (the default
argument at src/binaryninjaapi.h:632 and 686), `GetEndianness()`
returns `LittleEndian` until `SetEndianness` changes it, and in the
little-endian state the endian-generic `Read16/32/64` and
`Write16/32/64` behave exactly as their `LE` counterparts. -/
theorem default_little_endian (v : List Nat) (r : BinaryReader) (w : BinaryWriter) (x : Nat)
    (hr : r.GetEndianness = .LittleEndian) (hw : w.GetEndianness = .LittleEndian) :
    (BinaryReader.new v).GetEndianness = .LittleEndian
    ∧ (BinaryWriter.new v).GetEndianness = .LittleEndian
    ∧ r.TryRead16 = r.TryReadLE16
    ∧ r.TryRead32 = r.TryReadLE32
    ∧ r.TryRead64 = r.TryReadLE64
    ∧ r.Read16 = r.ReadLE16
    ∧ r.Read32 = r.ReadLE32
    ∧ r.Read64 = r.ReadLE64
    ∧ w.TryWrite16 x = w.TryWriteLE16 x
    ∧ w.TryWrite32 x = w.TryWriteLE32 x
    ∧ w.TryWrite64 x = w.TryWriteLE64 x
    ∧ w.Write16 x = w.WriteLE16 x
    ∧ w.Write32 x = w.WriteLE32 x
    ∧ w.Write64 x = w.WriteLE64 x
    ∧ (r.SetEndianness .BigEndian).GetEndianness = .BigEndian
    ∧ (w.SetEndianness .BigEndian).GetEndianness = .BigEndian := by
  have hr1 : r.endian = .LittleEndian := hr
  have hw1 : w.endian = .LittleEndian := hw
  refine ⟨rfl, rfl, ?_, ?_, ?_, ?_, ?_, ?_, ?_, ?_, ?_, ?_, ?_, ?_, rfl, rfl⟩
  · simp [BinaryReader.TryRead16, BinaryReader.TryReadLE16, hr1]
  · simp [BinaryReader.TryRead32, BinaryReader.TryReadLE32, hr1]
  · simp [BinaryReader.TryRead64, BinaryReader.TryReadLE64, hr1]
  · simp [BinaryReader.Read16, BinaryReader.ReadLE16,
      BinaryReader.TryRead16, BinaryReader.TryReadLE16, hr1]
  · simp [BinaryReader.Read32, BinaryReader.ReadLE32,
      BinaryReader.TryRead32, BinaryReader.TryReadLE32, hr1]
  · simp [BinaryReader.Read64, BinaryReader.ReadLE64,
      BinaryReader.TryRead64, BinaryReader.TryReadLE64, hr1]
  · simp [BinaryWriter.TryWrite16, BinaryWriter.TryWriteLE16, hw1]
  · simp [BinaryWriter.TryWrite32, BinaryWriter.TryWriteLE32, hw1]
  · simp [BinaryWriter.TryWrite64, BinaryWriter.TryWriteLE64, hw1]
  · simp [BinaryWriter.Write16, BinaryWriter.WriteLE16,
      BinaryWriter.TryWrite16, BinaryWriter.TryWriteLE16, hw1]
  · simp [BinaryWriter.Write32, BinaryWriter.WriteLE32,
      BinaryWriter.TryWrite32, BinaryWriter.TryWriteLE32, hw1]
  · simp [BinaryWriter.Write64, BinaryWriter.WriteLE64,
      BinaryWriter.TryWrite64, BinaryWriter.TryWriteLE64, hw1]

/-- Witness for C10 at readers and writers built by the defaulted
constructors. -/
theorem default_little_endian_witness :
    ((BinaryReader.new [5, 6]).GetEndianness = .LittleEndian
      ∧ (BinaryWriter.new [7]).GetEndianness = .LittleEndian)
    ∧ ((BinaryReader.new [9, 9]).GetEndianness = .LittleEndian
      ∧ (BinaryWriter.new [9]).GetEndianness = .LittleEndian
      ∧ (BinaryReader.new [5, 6]).TryRead16 = (BinaryReader.new [5, 6]).TryReadLE16
      ∧ (BinaryReader.new [5, 6]).TryRead32 = (BinaryReader.new [5, 6]).TryReadLE32
      ∧ (BinaryReader.new [5, 6]).TryRead64 = (BinaryReader.new [5, 6]).TryReadLE64
      ∧ (BinaryReader.new [5, 6]).Read16 = (BinaryReader.new [5, 6]).ReadLE16
      ∧ (BinaryReader.new [5, 6]).Read32 = (BinaryReader.new [5, 6]).ReadLE32
      ∧ (BinaryReader.new [5, 6]).Read64 = (BinaryReader.new [5, 6]).ReadLE64
      ∧ (BinaryWriter.new [7]).TryWrite16 258 = (BinaryWriter.new [7]).TryWriteLE16 258
      ∧ (BinaryWriter.new [7]).TryWrite32 258 = (BinaryWriter.new [7]).TryWriteLE32 258
      ∧ (BinaryWriter.new [7]).TryWrite64 258 = (BinaryWriter.new [7]).TryWriteLE64 258
      ∧ (BinaryWriter.new [7]).Write16 258 = (BinaryWriter.new [7]).WriteLE16 258
      ∧ (BinaryWriter.new [7]).Write32 258 = (BinaryWriter.new [7]).WriteLE32 258
      ∧ (BinaryWriter.new [7]).Write64 258 = (BinaryWriter.new [7]).WriteLE64 258
      ∧ ((BinaryReader.new [5, 6]).SetEndianness .BigEndian).GetEndianness = .BigEndian
      ∧ ((BinaryWriter.new [7]).SetEndianness .BigEndian).GetEndianness = .BigEndian) :=
  ⟨⟨by decide, by decide⟩,
    default_little_endian [9, 9] (BinaryReader.new [5, 6]) (BinaryWriter.new [7]) 258
      (by decide) (by decide)⟩

/-! ## Lemmas about the core buffer store -/

theorem le_foldr_max {l : List Nat} {k : Nat} (h : k ∈ l) : k ≤ l.foldr max 0 := by
  induction l with
  | nil => simp at h
  | cons a t ih =>
    simp only [List.foldr_cons]
    rcases List.mem_cons.mp h with h | h
    · subst h
      exact le_max_left _ _
    · exact le_trans (ih h) (le_max_right _ _)

theorem lt_freshBuf {H : BufHeap} {k : BufId} (h : k ∈ akeys H) : k < freshBuf H := by
  unfold freshBuf
  exact Nat.lt_succ_of_le (le_foldr_max h)

theorem alookup_freshBuf {H : BufHeap} : alookup H (freshBuf H) = none := by
  rw [alookup_eq_none_iff]
  intro hmem
  exact absurd (lt_freshBuf hmem) (lt_irrefl _)

theorem alookup_mutate_ne {H : BufHeap} {b c : DataBuffer} {m : BufMutation}
    (hne : b.m_buffer ≠ c.m_buffer) :
    alookup (DataBuffer.mutate H b m) c.m_buffer = alookup H c.m_buffer := by
  cases m <;> simp [DataBuffer.mutate, bnSetDataBufferLength, bnClearDataBuffer,
    bnAppendDataBufferContents, bnWriteBufferByte, alookup_amodify, hne]

/-- **C6.** `DataBuffer` has value semantics: copy construction and
copy assignment produce a buffer equal in length and contents to the
source but independent of it — the copy lives in a fresh core buffer,
so any mutating operation (`SetSize`, `Clear`, `Append`, `AppendByte`,
or a write through `operator[]`) applied to either buffer leaves the
other buffer's contents (hence its length) unchanged. -/
theorem dataBuffer_value_semantics (H : BufHeap) (b c0 : DataBuffer) (bs : List Nat)
    (m m2 : BufMutation)
    (hb : alookup H b.m_buffer = some bs) (hc0 : c0.m_buffer ≠ b.m_buffer) :
    alookup (DataBuffer.copyCtor H b).2 (DataBuffer.copyCtor H b).1.m_buffer = some bs
    ∧ alookup (DataBuffer.copyCtor H b).2 b.m_buffer = some bs
    ∧ (DataBuffer.copyCtor H b).1.m_buffer ≠ b.m_buffer
    ∧ alookup (DataBuffer.mutate (DataBuffer.copyCtor H b).2 (DataBuffer.copyCtor H b).1 m)
        b.m_buffer = some bs
    ∧ alookup (DataBuffer.mutate (DataBuffer.copyCtor H b).2 b m2)
        (DataBuffer.copyCtor H b).1.m_buffer
      = alookup (DataBuffer.copyCtor H b).2 (DataBuffer.copyCtor H b).1.m_buffer
    ∧ alookup (DataBuffer.opAssign H c0 b).2 (DataBuffer.opAssign H c0 b).1.m_buffer = some bs
    ∧ alookup (DataBuffer.opAssign H c0 b).2 b.m_buffer = some bs
    ∧ (DataBuffer.opAssign H c0 b).1.m_buffer ≠ b.m_buffer
    ∧ alookup (DataBuffer.mutate (DataBuffer.opAssign H c0 b).2 (DataBuffer.opAssign H c0 b).1 m)
        b.m_buffer = some bs := by
  have hbmem : b.m_buffer ∈ akeys H := by
    rw [← alookup_isSome_iff, hb]
    rfl
  have hfb : freshBuf H ≠ b.m_buffer := fun hh => absurd (hh ▸ lt_freshBuf hbmem) (lt_irrefl _)
  have h1 : alookup (DataBuffer.copyCtor H b).2 (DataBuffer.copyCtor H b).1.m_buffer
      = some bs := by
    simp [DataBuffer.copyCtor, bnDuplicateDataBuffer, hb]
  have h2 : alookup (DataBuffer.copyCtor H b).2 b.m_buffer = some bs := by
    simp [DataBuffer.copyCtor, bnDuplicateDataBuffer, hfb, hb]
  have hrem : alookup (bnFreeDataBuffer H c0.m_buffer) b.m_buffer = some bs := by
    unfold bnFreeDataBuffer
    rw [alookup_aremove, if_neg hc0]
    exact hb
  have hbmem1 : b.m_buffer ∈ akeys (bnFreeDataBuffer H c0.m_buffer) := by
    rw [← alookup_isSome_iff, hrem]
    rfl
  have hfb1 : freshBuf (bnFreeDataBuffer H c0.m_buffer) ≠ b.m_buffer :=
    fun hh => absurd (hh ▸ lt_freshBuf hbmem1) (lt_irrefl _)
  have h6 : alookup (DataBuffer.opAssign H c0 b).2 (DataBuffer.opAssign H c0 b).1.m_buffer
      = some bs := by
    simp [DataBuffer.opAssign, bnDuplicateDataBuffer, hrem]
  have h7 : alookup (DataBuffer.opAssign H c0 b).2 b.m_buffer = some bs := by
    simp [DataBuffer.opAssign, bnDuplicateDataBuffer, hfb1, hrem]
  refine ⟨h1, h2, hfb, ?_, ?_, h6, h7, hfb1, ?_⟩
  · rw [alookup_mutate_ne ?hne]
    · exact h2
    case hne =>
      show freshBuf H ≠ b.m_buffer
      exact hfb
  · rw [alookup_mutate_ne ?hne]
    case hne =>
      show b.m_buffer ≠ freshBuf H
      exact fun hh => hfb hh.symm
  · rw [alookup_mutate_ne ?hne]
    · exact h7
    case hne =>
      show freshBuf (bnFreeDataBuffer H c0.m_buffer) ≠ b.m_buffer
      exact hfb1

/-- Witness for C6 at a concrete two-buffer store. -/
theorem dataBuffer_value_semantics_witness :
    (alookup [(1, [7, 8]), (2, [9])] (DataBuffer.mk 1).m_buffer = some [7, 8]
      ∧ (DataBuffer.mk 2).m_buffer ≠ (DataBuffer.mk 1).m_buffer)
    ∧ (alookup (DataBuffer.copyCtor [(1, [7, 8]), (2, [9])] ⟨1⟩).2
          (DataBuffer.copyCtor [(1, [7, 8]), (2, [9])] ⟨1⟩).1.m_buffer = some [7, 8]
      ∧ alookup (DataBuffer.copyCtor [(1, [7, 8]), (2, [9])] ⟨1⟩).2
          (DataBuffer.mk 1).m_buffer = some [7, 8]
      ∧ (DataBuffer.copyCtor [(1, [7, 8]), (2, [9])] ⟨1⟩).1.m_buffer
          ≠ (DataBuffer.mk 1).m_buffer
      ∧ alookup (DataBuffer.mutate (DataBuffer.copyCtor [(1, [7, 8]), (2, [9])] ⟨1⟩).2
          (DataBuffer.copyCtor [(1, [7, 8]), (2, [9])] ⟨1⟩).1 (.appendByte 3))
          (DataBuffer.mk 1).m_buffer = some [7, 8]
      ∧ alookup (DataBuffer.mutate (DataBuffer.copyCtor [(1, [7, 8]), (2, [9])] ⟨1⟩).2
          ⟨1⟩ .clear) (DataBuffer.copyCtor [(1, [7, 8]), (2, [9])] ⟨1⟩).1.m_buffer
        = alookup (DataBuffer.copyCtor [(1, [7, 8]), (2, [9])] ⟨1⟩).2
            (DataBuffer.copyCtor [(1, [7, 8]), (2, [9])] ⟨1⟩).1.m_buffer
      ∧ alookup (DataBuffer.opAssign [(1, [7, 8]), (2, [9])] ⟨2⟩ ⟨1⟩).2
          (DataBuffer.opAssign [(1, [7, 8]), (2, [9])] ⟨2⟩ ⟨1⟩).1.m_buffer = some [7, 8]
      ∧ alookup (DataBuffer.opAssign [(1, [7, 8]), (2, [9])] ⟨2⟩ ⟨1⟩).2
          (DataBuffer.mk 1).m_buffer = some [7, 8]
      ∧ (DataBuffer.opAssign [(1, [7, 8]), (2, [9])] ⟨2⟩ ⟨1⟩).1.m_buffer
          ≠ (DataBuffer.mk 1).m_buffer
      ∧ alookup (DataBuffer.mutate (DataBuffer.opAssign [(1, [7, 8]), (2, [9])] ⟨2⟩ ⟨1⟩).2
          (DataBuffer.opAssign [(1, [7, 8]), (2, [9])] ⟨2⟩ ⟨1⟩).1 (.appendByte 3))
          (DataBuffer.mk 1).m_buffer = some [7, 8]) :=
  ⟨⟨by decide, by decide⟩,
    dataBuffer_value_semantics [(1, [7, 8]), (2, [9])] ⟨1⟩ ⟨2⟩ [7, 8]
      (.appendByte 3) .clear (by decide) (by decide)⟩

end BinaryNinja
